import Mathlib

/-!
# Volcengine TLS exporter: trace batch to log-service records

A shallow embedding of `exporter/volcenginetlsexporter/tracedata_to_logservice.go`
and theorems about it.

Conventions of the embedding:

* Go slices are `List`s, a `for i := 0; i < s.Len(); i++` loop over `s.At(i)` is a
  left fold over the list, `append` is `++`.
* `uint64` timestamps are `Nat`s; where the source can wrap (the subtraction of the
  `Duration` field, the conversion `int64(...)`) the wrap is written out with `2 ^ 64`.
* A pointer result that the caller tests against `nil` is an `Option`.
* `time.Now().UnixNano()` is an explicit reading: `spanToLogServiceData` receives the
  value the clock would give in that invocation, and the batch functions receive
  `clock : Nat → Int`, the reading available to the n-th invocation (counted from 0).
* `map[string]interface{}` followed by `json.Marshal` is a key-sorted association
  list (`GoMap`): `encoding/json` writes map keys in sorted order.
-/

namespace Volcenginetlsexporter

/-! ## Field names (tracedata_to_logservice.go, lines 30-54) -/

def nameField : String := "Name"
def traceIDField : String := "TraceID"
def spanIDField : String := "SpanID"
def traceStateField : String := "TraceState"
def parentSpanIDField : String := "ParentSpanID"
def kindField : String := "Kind"
def startTimeField : String := "Start"
def endTimeField : String := "End"
def durationField : String := "Duration"
def attributesField : String := "Attributes"
def eventsField : String := "Events"
def linksField : String := "Links"
def timeField : String := "Time"
def statusCodeField : String := "StatusCode"
def statusDescriptionField : String := "StatusDescription"

def resourceField : String := "Resource"
def hostField : String := "Host"
def serviceNameField : String := "ServiceName"

def otlpNameField : String := "OTLPName"
def otlpVersionField : String := "OTLPVersion"

/-! ## Library constants -/

/-- The semantic-convention key `conventions.AttributeHostName`. -/
def AttributeHostName : String := "host.name"

/-- The semantic-convention key `conventions.AttributeServiceName`. -/
def AttributeServiceName : String := "service.name"

/-- Values of `ptrace.SpanKind` (an `int32` enumeration). -/
def SpanKindUnspecified : Int := 0
def SpanKindInternal : Int := 1
def SpanKindServer : Int := 2
def SpanKindClient : Int := 3
def SpanKindProducer : Int := 4
def SpanKindConsumer : Int := 5

/-- Values of `ptrace.StatusCode` (an `int32` enumeration). -/
def StatusCodeUnset : Int := 0
def StatusCodeOk : Int := 1
def StatusCodeError : Int := 2

/-- The six `tracetranslator.OpenTracingSpanKind*` string constants that
`spanKindToShortString` returns. They are declared in
`internal/coreinternal/tracetranslator`, outside the translated files, so the functions
take them as a parameter. -/
structure OpenTracingSpanKind where
  Unspecified : String
  Client : String
  Server : String
  Consumer : String
  Producer : String
  Internal : String
deriving DecidableEq, Repr

/-- Modelled from the spec: the literal values of the `tracetranslator.OpenTracingSpanKind*`
constants, which are declared outside the translated files. The tokens are those of the
kind-mapping table of section 4.1: internal, client, server, producer, consumer and,
for any other kind, unspecified. -/
def specSpanKindTokens : OpenTracingSpanKind where
  Unspecified := "unspecified"
  Client := "client"
  Server := "server"
  Consumer := "consumer"
  Producer := "producer"
  Internal := "internal"

/-! ## encoding/hex -/

/-- One byte. -/
abbrev Byte := Fin 256

/-- The table `hextable` of encoding/hex. -/
def hextable : List Char :=
  ['0', '1', '2', '3', '4', '5', '6', '7', '8', '9', 'a', 'b', 'c', 'd', 'e', 'f']

/-- Indexing `hextable[n]`. -/
def hexDigit (n : Nat) : Char := hextable.getD n '0'

/-- Go `hex.Encode`: every byte `v` gives `hextable[v>>4]` then `hextable[v&0x0f]`. -/
def hexEncode : List Byte → List Char
  | [] => []
  | v :: rest => hexDigit (v.val / 16) :: hexDigit (v.val % 16) :: hexEncode rest

/-- Go `hex.EncodeToString`. -/
def EncodeToString (src : List Byte) : String := String.mk (hexEncode src)

/-- Go `reverseHexTable` of encoding/hex: the value of a hexadecimal digit, `none` where
the table holds `0xff`. -/
def fromHexChar (c : Char) : Option Nat :=
  if '0' ≤ c ∧ c ≤ '9' then some (c.toNat - '0'.toNat)
  else if 'a' ≤ c ∧ c ≤ 'f' then some (c.toNat - 'a'.toNat + 10)
  else if 'A' ≤ c ∧ c ≤ 'F' then some (c.toNat - 'A'.toNat + 10)
  else none

/-- Go `hex.Decode` on the characters of the input: pairs of digits are read from the
left, a character that is no digit or a dangling last character is an error (`none`). -/
def hexDecode : List Char → Option (List Byte)
  | [] => some []
  | [_] => none
  | p :: q :: rest =>
    match fromHexChar p, fromHexChar q with
    | some a, some b =>
      match hexDecode rest with
      | some bs => some (Fin.ofNat (a * 16 + b) :: bs)
      | none => none
    | _, _ => none

/-- Go `hex.DecodeString`. -/
def DecodeString (s : String) : Option (List Byte) := hexDecode s.data

/-- A character of the lower-case hexadecimal alphabet `0-9a-f`. -/
def isLowerHex (c : Char) : Bool :=
  (decide ('0' ≤ c) && decide (c ≤ '9')) || (decide ('a' ≤ c) && decide (c ≤ 'f'))

/-! ## pcommon identifiers -/

/-- The type `pcommon.TraceID`, a `[16]byte`. -/
abbrev TraceID := { l : List Byte // l.length = 16 }

/-- The type `pcommon.SpanID`, an `[8]byte`. -/
abbrev SpanID := { l : List Byte // l.length = 8 }

/-- The method `TraceID.IsEmpty`: the identifier equals the all-zero array. -/
def TraceID.IsEmpty (id : TraceID) : Bool := decide (id.val = List.replicate 16 0)

/-- The method `SpanID.IsEmpty`: the identifier equals the all-zero array. -/
def SpanID.IsEmpty (id : SpanID) : Bool := decide (id.val = List.replicate 8 0)

/-- Source lines 250-255. -/
def TraceIDToHexOrEmptyString (id : TraceID) : String :=
  if id.IsEmpty then "" else EncodeToString id.val

/-- Source lines 257-262. -/
def SpanIDToHexOrEmptyString (id : SpanID) : String :=
  if id.IsEmpty then "" else EncodeToString id.val

/-! ## Kind and status tokens -/

/-- Source lines 264-279. -/
def spanKindToShortString (t : OpenTracingSpanKind) (kind : Int) : String :=
  if kind = SpanKindInternal then t.Internal
  else if kind = SpanKindClient then t.Client
  else if kind = SpanKindServer then t.Server
  else if kind = SpanKindProducer then t.Producer
  else if kind = SpanKindConsumer then t.Consumer
  else t.Unspecified

/-- Source lines 281-290. -/
def statusCodeToShortString (code : Int) : String :=
  if code = StatusCodeError then "ERROR"
  else if code = StatusCodeOk then "OK"
  else "UNSET"

/-! ## map[string]interface{} and encoding/json -/

/-- A Go map with string keys, kept as an association list in the order in which
`json.Marshal` writes it (sorted by key, one entry per key). -/
abbrev GoMap (α : Type) := List (String × α)

/-- The assignment `m[k] = v`: a present key has its value replaced, a new key is put
at its sorted position. -/
def GoMap.set {α : Type} : GoMap α → String → α → GoMap α
  | [], k, v => [(k, v)]
  | (k0, v0) :: rest, k, v =>
    if k = k0 then (k, v) :: rest
    else if k < k0 then (k, v) :: (k0, v0) :: rest
    else (k0, v0) :: GoMap.set rest k v

/-- The lookup `m[k]` with its presence flag. -/
def GoMap.get {α : Type} : GoMap α → String → Option α
  | [], _ => none
  | (k0, v0) :: rest, k => if k = k0 then some v0 else GoMap.get rest k

/-- The keys of the map, in marshalling order. -/
def GoMap.keys {α : Type} (m : GoMap α) : List String := m.map Prod.fst

/-- The quotation mark. -/
def quoteChar : Char := Char.ofNat 34

/-- The reverse solidus. -/
def backslashChar : Char := Char.ofNat 92

/-- How `encoding/json` writes one character of a string (HTML escaping on, as in
`json.Marshal`): the quote and the backslash are escaped with a backslash, line feed,
carriage return and tab are written with their letter, other control characters, the
characters `<`, `>`, `&` and U+2028, U+2029 are written as a `u` escape with four
hexadecimal digits. -/
def jsonEscapeChar (c : Char) : List Char :=
  if c = quoteChar then [backslashChar, quoteChar]
  else if c = backslashChar then [backslashChar, backslashChar]
  else if c = Char.ofNat 10 then [backslashChar, 'n']
  else if c = Char.ofNat 13 then [backslashChar, 'r']
  else if c = Char.ofNat 9 then [backslashChar, 't']
  else if c.toNat < 32 ∨ c = '<' ∨ c = '>' ∨ c = '&' ∨ c.toNat = 8232 ∨ c.toNat = 8233 then
    [backslashChar, 'u', hexDigit (c.toNat / 4096 % 16), hexDigit (c.toNat / 256 % 16),
      hexDigit (c.toNat / 16 % 16), hexDigit (c.toNat % 16)]
  else [c]

/-- A JSON string as `json.Marshal` writes it. -/
def jsonString (s : String) : String :=
  String.mk (quoteChar :: (s.data.flatMap jsonEscapeChar ++ [quoteChar]))

/-- A JSON object as `json.Marshal` writes a non-nil map whose values are already
encoded. -/
def jsonObject (m : GoMap String) : String :=
  "\x7b" ++ ",".intercalate (m.map fun kv => jsonString kv.1 ++ ":" ++ kv.2) ++ "\x7d"

/-- A JSON array as `json.Marshal` writes a non-nil slice whose elements are already
encoded. -/
def jsonArray (xs : List String) : String :=
  "[" ++ ",".intercalate xs ++ "]"

/-! ## pcommon values and maps -/

/-- A `pcommon.Value`. The scalar kinds are modelled by their content; a value of the
kinds Double, Map, Slice and Bytes carries the two renderings the exporter asks for:
`AsString()` and the `json.Marshal` encoding of `AsRaw()`. -/
inductive Value where
  | empty
  | str (s : String)
  | int (i : Int)
  | bool (b : Bool)
  | other (asString : String) (asJSON : String)
deriving DecidableEq, Repr

/-- The method `Value.AsString`. -/
def Value.AsString : Value → String
  | .empty => ""
  | .str s => s
  | .int i => toString i
  | .bool b => if b then "true" else "false"
  | .other s _ => s

/-- The `json.Marshal` encoding of `Value.AsRaw()`. -/
def Value.rawJSON : Value → String
  | .empty => "null"
  | .str s => jsonString s
  | .int i => toString i
  | .bool b => if b then "true" else "false"
  | .other _ j => j

/-- A `pcommon.Map`: a slice of key/value pairs. -/
abbrev Map := List (String × Value)

/-- The method `Map.Get`: the value of the first pair with the key. -/
def Map.Get : Map → String → Option Value
  | [], _ => none
  | (k0, v0) :: rest, k => if k0 = k then some v0 else Map.Get rest k

/-- The method `Map.AsRaw` followed by `json.Marshal`: `Range` assigns every pair into
a fresh Go map, which is then written as an object. -/
def Map.rawJSON (m : Map) : String :=
  jsonObject (m.foldl (fun raw kv => GoMap.set raw kv.1 kv.2.rawJSON) [])

/-! ## ptrace data -/

structure SpanEvent where
  name : String
  timestamp : Nat
  attributes : Map
deriving DecidableEq, Repr

structure SpanLink where
  traceID : TraceID
  spanID : SpanID
  attributes : Map
deriving DecidableEq, Repr

structure Status where
  code : Int
  message : String
deriving DecidableEq, Repr

structure Span where
  name : String
  traceID : TraceID
  spanID : SpanID
  traceState : String
  parentSpanID : SpanID
  kind : Int
  startTimestamp : Nat
  endTimestamp : Nat
  attributes : Map
  events : List SpanEvent
  links : List SpanLink
  status : Status
deriving DecidableEq, Repr

structure InstrumentationScope where
  name : String
  version : String
deriving DecidableEq, Repr

structure Resource where
  attributes : Map
deriving DecidableEq, Repr

structure ScopeSpans where
  scope : InstrumentationScope
  spans : List Span
deriving DecidableEq, Repr

structure ResourceSpans where
  resource : Resource
  scopeSpans : List ScopeSpans
deriving DecidableEq, Repr

structure Traces where
  resourceSpans : List ResourceSpans
deriving DecidableEq, Repr

/-! ## pb records -/

structure LogContent where
  Key : String
  Value : String
deriving DecidableEq, Repr

structure Log where
  Time : Int
  Contents : List LogContent
deriving DecidableEq, Repr

structure LogGroup where
  Logs : List Log
deriving DecidableEq, Repr

structure LogGroupList where
  LogGroups : List LogGroup
deriving DecidableEq, Repr

/-! ## The translator (tracedata_to_logservice.go) -/

/-- The conversion `int64(x)` of a `uint64`: values from `2 ^ 63` on become negative. -/
def toInt64 (x : Nat) : Int :=
  if x % 2 ^ 64 < 2 ^ 63 then ((x % 2 ^ 64 : Nat) : Int) else ((x % 2 ^ 64 : Nat) : Int) - 2 ^ 64

/-- The subtraction of two `uint64` values, which wraps around modulo `2 ^ 64`. -/
def uint64Sub (a b : Nat) : Nat := (a + 2 ^ 64 - b) % 2 ^ 64

/-- Go `strconv.FormatUint(x, 10)`. -/
def FormatUint (x : Nat) : String := toString x

/-- Source lines 94-107. -/
def instrumentationScopeToLogContents (instrumentationScope : InstrumentationScope) :
    List LogContent :=
  [{ Key := otlpNameField, Value := instrumentationScope.name },
   { Key := otlpVersionField, Value := instrumentationScope.version }]

/-- Source lines 186-202. -/
def linksToString (spanLinkSlice : List SpanLink) : String :=
  let linkSlice := spanLinkSlice.foldl (fun (linkSlice : List (GoMap String)) spanLink =>
    let linkMap : GoMap String := []
    let linkMap := linkMap.set spanIDField (jsonString (SpanIDToHexOrEmptyString spanLink.spanID))
    let linkMap := linkMap.set traceIDField
      (jsonString (TraceIDToHexOrEmptyString spanLink.traceID))
    let linkMap := linkMap.set attributesField spanLink.attributes.rawJSON
    linkSlice ++ [linkMap]) []
  jsonArray (linkSlice.map jsonObject)

/-- Source lines 232-240: the map `otherResource` after the `Range` over the resource
attributes. -/
def otherResource (attributesMap : Map) : GoMap String :=
  attributesMap.foldl (fun (otherResource : GoMap String) kv =>
    if kv.1 = AttributeServiceName ∨ kv.1 = AttributeHostName then otherResource
    else otherResource.set kv.1 kv.2.AsString) []

/-- The call `json.Marshal` on a map all of whose values are strings. -/
def jsonMarshalStrings (m : GoMap String) : String :=
  jsonObject (m.map fun kv => (kv.1, jsonString kv.2))

/-- Source lines 204-248. -/
def resourceToLogContents (resource : Resource) : List LogContent :=
  let attributesMap := resource.attributes
  let logContents0 : LogContent :=
    match attributesMap.Get AttributeHostName with
    | some hostName => { Key := hostField, Value := hostName.AsString }
    | none => { Key := hostField, Value := "" }
  let logContents1 : LogContent :=
    match attributesMap.Get AttributeServiceName with
    | some serviceName => { Key := serviceNameField, Value := serviceName.AsString }
    | none => { Key := serviceNameField, Value := "" }
  let otherResourceJsonBytes := jsonMarshalStrings (otherResource attributesMap)
  [logContents0, logContents1, { Key := resourceField, Value := otherResourceJsonBytes }]

/-- Source lines 292-308. -/
def eventsToString (events : List SpanEvent) : String :=
  let eventSlice := events.foldl (fun (eventSlice : List (GoMap String)) spanEvent =>
    let eventMap : GoMap String := []
    let eventMap := eventMap.set nameField (jsonString spanEvent.name)
    let eventMap := eventMap.set timeField (toString spanEvent.timestamp)
    let eventMap := eventMap.set attributesField spanEvent.attributes.rawJSON
    eventSlice ++ [eventMap]) []
  jsonArray (eventSlice.map jsonObject)

/-- Source lines 109-184. The argument `now` is the value of `time.Now().UnixNano()`
in this invocation; the result is the pointer `&pbLog`. -/
def spanToLogServiceData (t : OpenTracingSpanKind) (now : Int) (span : Span)
    (resourceLogContents instrumentationLibraryLogContents : List LogContent) : Option Log :=
  let timeNano := toInt64 span.endTimestamp
  let timeNano := if timeNano = 0 then now else timeNano
  some {
    Time := (timeNano.tdiv 1000).tdiv 1000
    Contents := resourceLogContents ++ instrumentationLibraryLogContents ++
      [{ Key := nameField, Value := span.name },
       { Key := traceIDField, Value := TraceIDToHexOrEmptyString span.traceID },
       { Key := spanIDField, Value := SpanIDToHexOrEmptyString span.spanID },
       { Key := traceStateField, Value := span.traceState },
       { Key := parentSpanIDField, Value := SpanIDToHexOrEmptyString span.parentSpanID },
       { Key := kindField, Value := spanKindToShortString t span.kind },
       { Key := startTimeField, Value := FormatUint (span.startTimestamp / 1000) },
       { Key := endTimeField, Value := FormatUint (span.endTimestamp / 1000) },
       { Key := durationField,
         Value := FormatUint (uint64Sub span.endTimestamp span.startTimestamp / 1000) },
       { Key := attributesField, Value := span.attributes.rawJSON },
       { Key := eventsField, Value := eventsToString span.events },
       { Key := linksField, Value := linksToString span.links },
       { Key := statusCodeField, Value := statusCodeToShortString span.status.code },
       { Key := statusDescriptionField, Value := span.status.message }] }

/-- Source lines 83-87, the body of the loop over the spans of one scope. The state is
the slice `pbLogs` and the number of invocations of `spanToLogServiceData` made so far
in the batch, which selects the clock reading. -/
def spanStep (t : OpenTracingSpanKind) (clock : Nat → Int)
    (resourceLogContents instrumentationLibraryLogContents : List LogContent)
    (st : List Log × Nat) (span : Span) : List Log × Nat :=
  match spanToLogServiceData t (clock st.2) span resourceLogContents
      instrumentationLibraryLogContents with
  | some pbLog => (st.1 ++ [pbLog], st.2 + 1)
  | none => (st.1, st.2 + 1)

/-- Source lines 76-88, the body of the loop over the scopes of one resource group. -/
def scopeStep (t : OpenTracingSpanKind) (clock : Nat → Int)
    (resourceLogContents : List LogContent)
    (st : List Log × Nat) (scopeSpans : ScopeSpans) : List Log × Nat :=
  let instrumentationLibraryLogContents := instrumentationScopeToLogContents scopeSpans.scope
  scopeSpans.spans.foldl
    (spanStep t clock resourceLogContents instrumentationLibraryLogContents) st

/-- Source lines 71-92. The argument `n` is the number of invocations of
`spanToLogServiceData` made before the call; the result holds the slice `pbLogs` and the
number of invocations after it. -/
def resourceSpansToLogServiceData (t : OpenTracingSpanKind) (clock : Nat → Int) (n : Nat)
    (resourceSpans : ResourceSpans) : List Log × Nat :=
  let resourceLogContents := resourceToLogContents resourceSpans.resource
  resourceSpans.scopeSpans.foldl (scopeStep t clock resourceLogContents) ([], n)

/-- Source lines 57-69. -/
def traceDataToTlsData (t : OpenTracingSpanKind) (clock : Nat → Int) (td : Traces) :
    LogGroupList :=
  let st := td.resourceSpans.foldl (fun (st : List Log × Nat) resourceSpans =>
    let tmp := resourceSpansToLogServiceData t clock st.2 resourceSpans
    (st.1 ++ tmp.1, tmp.2)) ([], 0)
  { LogGroups := [{ Logs := st.1 }] }

/-! ## Traversal order of a batch -/

/-- The spans of a batch in resource-group, scope, span traversal order, each with the
resource and the scope that enclose it. -/
def spansInOrder (td : Traces) : List (Resource × InstrumentationScope × Span) :=
  td.resourceSpans.flatMap fun rs =>
    rs.scopeSpans.flatMap fun ss => ss.spans.map fun sp => (rs.resource, ss.scope, sp)

/-- The total number of spans of a batch. -/
def totalSpans (td : Traces) : Nat :=
  (td.resourceSpans.map fun rs => (rs.scopeSpans.map fun ss => ss.spans.length).sum).sum

/-- The spans below a list of scope groups, each with its scope. -/
def scopeSpanPairs (sss : List ScopeSpans) : List (InstrumentationScope × Span) :=
  sss.flatMap fun ss => ss.spans.map fun sp => (ss.scope, sp)

/-! ## Sample inputs -/

/-- The all-zero trace identifier. -/
def zeroTraceID : TraceID := ⟨List.replicate 16 0, by decide⟩

/-- The all-zero span identifier. -/
def zeroSpanID : SpanID := ⟨List.replicate 8 0, by decide⟩

/-- A span with every field at its zero value. -/
def emptySpan : Span where
  name := ""
  traceID := zeroTraceID
  spanID := zeroSpanID
  traceState := ""
  parentSpanID := zeroSpanID
  kind := SpanKindUnspecified
  startTimestamp := 0
  endTimestamp := 0
  attributes := []
  events := []
  links := []
  status := { code := StatusCodeUnset, message := "" }

/-- The keys of a content list, in order. -/
def contentKeys (cs : List LogContent) : List String := cs.map fun c => c.Key

/-- Three resource content entries. -/
def sampleResourceContents : List LogContent :=
  [⟨"Host", "h"⟩, ⟨"ServiceName", "s"⟩, ⟨"Resource", "r"⟩]

/-- Two scope content entries whose keys are not those of the exporter. -/
def sampleScopeContents : List LogContent := [⟨"s1", ""⟩, ⟨"s2", ""⟩]

/-- A span that differs from `emptySpan` in its two timestamps. -/
def timedSpan (start finish : Nat) : Span :=
  { emptySpan with startTimestamp := start, endTimestamp := finish }

/-! ## Reading a record -/

/-- The value of the first content pair with the given key. -/
def lookupContent (cs : List LogContent) (key : String) : Option String :=
  (cs.find? fun c => c.Key == key).map fun c => c.Value

/-- The value of a span field of a record: the first pair with the key among the pairs
that follow the first `skip` pairs (those of the resource and of the scope). -/
def Log.spanField (l : Log) (skip : Nat) (key : String) : Option String :=
  lookupContent (l.Contents.drop skip) key

/-- The trace identifier 00 01 02 ... 0f. -/
def sampleTraceID : TraceID := ⟨[0, 1, 2, 3, 4, 5, 6, 7, 8, 9, 10, 11, 12, 13, 14, 15], by decide⟩

/-- The span identifier 01 02 03 04 05 06 07 08. -/
def sampleSpanID : SpanID := ⟨[1, 2, 3, 4, 5, 6, 7, 8], by decide⟩

/-! ## Attribute maps as the spec reads them -/

/-- The string form of the attribute with the given key, the empty string when no
attribute has that key. -/
def attributeStringOrEmpty (attributes : Map) (key : String) : String :=
  match attributes.find? (fun kv => kv.1 == key) with
  | some kv => kv.2.AsString
  | none => ""

/-- The value that a `Range` over the attributes leaves under a key in a Go map: that
of the last pair with the key. -/
def Map.lastValue (attributes : Map) (key : String) : Option Value :=
  (attributes.reverse.find? (fun kv => kv.1 == key)).map Prod.snd

/-- A resource with the attributes host.name, service.name and region. -/
def sampleResource : Resource where
  attributes := [("host.name", .str "h1"), ("service.name", .str "s1"), ("region", .str "x")]

/-! ## The uploader (config.go, trace_exporter.go, tls_client.go) -/

/-- The struct `Config` of config.go; `SecretKey` is a `configopaque.String`, which is a
string. -/
structure Config where
  Endpoint : String
  TopicID : String
  AccessKey : String
  SecretKey : String
  Region : String
deriving DecidableEq, Repr

/-- The struct `TlsPusher` of tls_client.go. -/
structure TlsPusher where
  EndPoint : String
  ConfigAK : String
  ConfigSK : String
  ConfigTopicID : String
  ConfigRegion : String
deriving DecidableEq, Repr

/-- Context keys of tls_client.go, lines 25-30. -/
def TlsTraceTopicKey : String := "tracetopic"
def TlsAKKey : String := "ak"
def TlsSKKey : String := "sk"
def TlsRegionKey : String := "region"

/-- A value held in an `interface{}`: a string, or a value of some other dynamic type
(named by a tag). -/
inductive Any where
  | str (s : String)
  | other (typeName : String)
deriving DecidableEq, Repr

/-- A `context.Context` as `ctx.Value` sees it on string keys; `none` is the nil
interface of a key that is not set. -/
abbrev Context := String → Option Any

/-- The type assertion `x.(string)` in its two-result form: the string and true when
the interface holds a string, the empty string and false otherwise. -/
def assertString : Option Any → String × Bool
  | some (.str s) => (s, true)
  | _ => ("", false)

/-- The client that `tls.NewClient(endpoint, accessKeyID, accessKeySecret, securityToken,
region)` builds, as the record of its arguments. -/
structure Client where
  endpoint : String
  accessKeyID : String
  accessKeySecret : String
  securityToken : String
  region : String
deriving DecidableEq, Repr

/-- Go `tls.NewClient`. -/
def NewClient (endpoint accessKeyID accessKeySecret securityToken region : String) : Client :=
  { endpoint := endpoint, accessKeyID := accessKeyID, accessKeySecret := accessKeySecret,
    securityToken := securityToken, region := region }

/-- The struct `tls.PutLogsRequest`. -/
structure PutLogsRequest where
  TopicID : String
  HashKey : String
  CompressType : String
  LogBody : LogGroupList
deriving DecidableEq, Repr

/-- The remote capability `cli.PutLogs(req)`, taken as a parameter: its error result for
a client and a request, `none` being the nil error. The response, which `pushToTls`
discards, is left out. -/
abbrev PutLogs (ε : Type) := Client → PutLogsRequest → Option ε

/-- What a call of `pushToTls` leaves behind: the invocations of the remote capability
in order, the returned error, and the pusher `*c` after the call. -/
structure Outcome (ε : Type) where
  calls : List (Client × PutLogsRequest)
  err : Option ε
  pusher : TlsPusher

/-- Source tls_client.go, lines 59-65. -/
def buildTlsPutLogsReq (topicID : String) (logGroup : LogGroupList) : PutLogsRequest :=
  { TopicID := topicID, HashKey := "", CompressType := "", LogBody := logGroup }

/-- Source tls_client.go, lines 45-57. -/
def pushToTls {ε : Type} (putLogs : PutLogs ε) (c : TlsPusher) (ctx : Context)
    (logPb : LogGroupList) : Outcome ε :=
  let cfg := (c.ConfigTopicID, c.ConfigAK, c.ConfigSK, c.ConfigRegion)
  let (ctxTopic, topicOk) := assertString (ctx TlsTraceTopicKey)
  let (ctxAk, akOk) := assertString (ctx TlsAKKey)
  let (ctxSk, skOk) := assertString (ctx TlsSKKey)
  let (ctxRegion, regionOk) := assertString (ctx TlsRegionKey)
  let (topic, ak, sk, region) :=
    if topicOk && akOk && skOk && regionOk then (ctxTopic, ctxAk, ctxSk, ctxRegion) else cfg
  let cli := NewClient c.EndPoint ak sk "" region
  let req := buildTlsPutLogsReq topic logPb
  let err := putLogs cli req
  { calls := [(cli, req)], err := err, pusher := c }

/-- Source tls_client.go, lines 40-43. -/
def pushTraceData {ε : Type} (t : OpenTracingSpanKind) (clock : Nat → Int)
    (putLogs : PutLogs ε) (c : TlsPusher) (ctx : Context) (trace : Traces) : Outcome ε :=
  let logPb := traceDataToTlsData t clock trace
  pushToTls putLogs c ctx logPb

/-- Source trace_exporter.go, lines 42-55. The configuration pointer is an `Option`
(`none` is nil), the result is the pusher or the error; the logger is not used. -/
def NewTlsPusher (config : Option Config) : Except String TlsPusher :=
  match config with
  | none =>
    .error "missing volcengine tls trace params: Endpoint, TopicID, AccessKey, SecretKey, Region"
  | some config =>
    if config.Endpoint = "" ∨ config.TopicID = "" ∨ config.AccessKey = "" ∨
        config.SecretKey = "" ∨ config.Region = "" then
      .error "missing volcengine tls trace params: Endpoint, TopicID, AccessKey, SecretKey, Region"
    else
      .ok { EndPoint := config.Endpoint, ConfigAK := config.AccessKey,
            ConfigSK := config.SecretKey, ConfigTopicID := config.TopicID,
            ConfigRegion := config.Region }

/-- The span of the worked example of the spec: name op, all-zero trace id, span id
01 02 ... 08, kind server, start 1,000,000,000 ns, end 2,000,000,000 ns, status OK;
the fields the example does not mention are at their zero value. -/
def exampleSpan : Span where
  name := "op"
  traceID := zeroTraceID
  spanID := sampleSpanID
  traceState := ""
  parentSpanID := zeroSpanID
  kind := SpanKindServer
  startTimestamp := 1000000000
  endTimestamp := 2000000000
  attributes := []
  events := []
  links := []
  status := { code := StatusCodeOk, message := "" }

/-- The batch of the worked example of the spec: one resource group with the attributes
host.name h1, service.name s1, region x, one scope lib 1.0, one span. -/
def exampleBatch : Traces where
  resourceSpans :=
    [{ resource := sampleResource,
       scopeSpans := [{ scope := { name := "lib", version := "1.0" }, spans := [exampleSpan] }] }]

/-- A context key holds a string: it is set and its value has dynamic type string. -/
def holdsString (ctx : Context) (key : String) : Bool :=
  match ctx key with
  | some (.str _) => true
  | _ => false

/-- A pusher with five distinct configured values. -/
def samplePusher : TlsPusher where
  EndPoint := "ep0"
  ConfigAK := "ak0"
  ConfigSK := "sk0"
  ConfigTopicID := "topic0"
  ConfigRegion := "region0"

/-- A context that sets the topic, the access key and the region to strings and the
secret key to a value that is not a string. -/
def partialContext : Context := fun key =>
  if key = "tracetopic" then some (.str "topic1")
  else if key = "ak" then some (.str "ak1")
  else if key = "sk" then some (.other "int")
  else if key = "region" then some (.str "region1")
  else none

/-- A context that sets the four override keys to strings. -/
def fullContext : Context := fun key =>
  if key = "tracetopic" then some (.str "topic1")
  else if key = "ak" then some (.str "ak1")
  else if key = "sk" then some (.str "sk1")
  else if key = "region" then some (.str "region1")
  else none

/-- A remote capability that fails on every request with the topic as its error. -/
def failingPutLogs : PutLogs String := fun _ req => some req.TopicID

/-- A clock that reads 1,700,000,000,000,000,000 ns at every invocation. -/
def clockA : Nat → Int := fun _ => 1700000000000000000

/-- A clock that starts at 1 ns and advances by one hour per invocation. -/
def clockB : Nat → Int := fun n => 1 + 3600000000000 * (n : Int)

/-! # Theorems -/

/-! ## Loops of the translator -/

theorem spanStep_spec (t : OpenTracingSpanKind) (clock : Nat → Int)
    (rc sc : List LogContent) (st : List Log × Nat) (span : Span) :
    (spanStep t clock rc sc st span).1.map some
        = st.1.map some ++ [spanToLogServiceData t (clock st.2) span rc sc]
      ∧ (spanStep t clock rc sc st span).2 = st.2 + 1 := by
  simp [spanStep, spanToLogServiceData]

theorem spans_foldl_spec (t : OpenTracingSpanKind) (clock : Nat → Int)
    (rc sc : List LogContent) (spans : List Span) :
    ∀ st : List Log × Nat,
      (spans.foldl (spanStep t clock rc sc) st).1.map some
          = st.1.map some ++ (spans.enumFrom st.2).map
              (fun p => spanToLogServiceData t (clock p.1) p.2 rc sc)
        ∧ (spans.foldl (spanStep t clock rc sc) st).2 = st.2 + spans.length := by
  induction spans with
  | nil => intro st; simp
  | cons sp rest ih =>
    intro st
    obtain ⟨h1, h2⟩ := spanStep_spec t clock rc sc st sp
    obtain ⟨i1, i2⟩ := ih (spanStep t clock rc sc st sp)
    refine ⟨?_, ?_⟩
    · simp only [List.foldl_cons, i1, h1, h2, List.enumFrom_cons, List.map_cons,
        List.append_assoc, List.singleton_append]
    · simp only [List.foldl_cons, i2, h2, List.length_cons]; omega

theorem scopes_foldl_spec (t : OpenTracingSpanKind) (clock : Nat → Int)
    (rc : List LogContent) (sss : List ScopeSpans) :
    ∀ st : List Log × Nat,
      (sss.foldl (scopeStep t clock rc) st).1.map some
          = st.1.map some ++ ((scopeSpanPairs sss).enumFrom st.2).map
              (fun p => spanToLogServiceData t (clock p.1) p.2.2 rc
                (instrumentationScopeToLogContents p.2.1))
        ∧ (sss.foldl (scopeStep t clock rc) st).2 = st.2 + (scopeSpanPairs sss).length := by
  induction sss with
  | nil => intro st; simp [scopeSpanPairs]
  | cons ss rest ih =>
    intro st
    obtain ⟨h1, h2⟩ := spans_foldl_spec t clock rc
      (instrumentationScopeToLogContents ss.scope) ss.spans st
    obtain ⟨i1, i2⟩ := ih (scopeStep t clock rc st ss)
    have hp : scopeSpanPairs (ss :: rest)
        = ss.spans.map (fun sp => (ss.scope, sp)) ++ scopeSpanPairs rest := by
      simp [scopeSpanPairs]
    refine ⟨?_, ?_⟩
    · rw [List.foldl_cons, i1, hp, List.enumFrom_append, List.map_append, List.enumFrom_map]
      simp only [scopeStep, h1, h2, List.length_map, List.append_assoc, List.map_map]
      rfl
    · rw [List.foldl_cons, i2, hp]
      simp only [scopeStep, h2, List.length_append, List.length_map]; omega

theorem resources_foldl_spec (t : OpenTracingSpanKind) (clock : Nat → Int)
    (rss : List ResourceSpans) :
    ∀ st : List Log × Nat,
      (rss.foldl (fun (st : List Log × Nat) resourceSpans =>
          ((st.1 ++ (resourceSpansToLogServiceData t clock st.2 resourceSpans).1,
            (resourceSpansToLogServiceData t clock st.2 resourceSpans).2) : List Log × Nat)) st).1.map some
          = st.1.map some ++ ((spansInOrder ⟨rss⟩).enumFrom st.2).map
              (fun p => spanToLogServiceData t (clock p.1) p.2.2.2
                (resourceToLogContents p.2.1) (instrumentationScopeToLogContents p.2.2.1))
        ∧ (rss.foldl (fun (st : List Log × Nat) resourceSpans =>
          ((st.1 ++ (resourceSpansToLogServiceData t clock st.2 resourceSpans).1,
            (resourceSpansToLogServiceData t clock st.2 resourceSpans).2) : List Log × Nat)) st).2
          = st.2 + (spansInOrder ⟨rss⟩).length := by
  induction rss with
  | nil => intro st; simp [spansInOrder]
  | cons rs rest ih =>
    intro st
    obtain ⟨h1, h2⟩ := scopes_foldl_spec t clock (resourceToLogContents rs.resource)
      rs.scopeSpans ([], st.2)
    obtain ⟨i1, i2⟩ := ih (st.1 ++ (resourceSpansToLogServiceData t clock st.2 rs).1,
            (resourceSpansToLogServiceData t clock st.2 rs).2)
    have hp : spansInOrder ⟨rs :: rest⟩
        = (scopeSpanPairs rs.scopeSpans).map (fun p => (rs.resource, p)) ++ spansInOrder ⟨rest⟩ := by
      simp [spansInOrder, scopeSpanPairs, List.map_flatMap]
      rfl
    refine ⟨?_, ?_⟩
    · rw [List.foldl_cons, i1, hp, List.enumFrom_append, List.map_append, List.enumFrom_map]
      simp only [resourceSpansToLogServiceData, h1, h2, List.length_map, List.append_assoc,
        List.map_map, List.map_append, List.map_nil, List.nil_append]
      rfl
    · rw [List.foldl_cons, i2, hp]
      simp only [resourceSpansToLogServiceData, h2, List.length_append, List.length_map]; omega

theorem totalSpans_eq_length (td : Traces) : totalSpans td = (spansInOrder td).length := by
  have h : ∀ (r : Resource) (sss : List ScopeSpans),
      (sss.flatMap fun ss => ss.spans.map fun sp => (r, ss.scope, sp)).length
        = (sss.map fun ss => ss.spans.length).sum := by
    intro r sss
    induction sss with
    | nil => rfl
    | cons ss rest ih => simp [ih]
  unfold totalSpans spansInOrder
  induction td.resourceSpans with
  | nil => rfl
  | cons rs rest ih => simp [ih, h]

/-! ## C1 -/

/-- C1: for every batch, `traceDataToTlsData` returns exactly one log group whose logs
are one record per span in resource-group, scope, span traversal order: the i-th log is
the result of `spanToLogServiceData` on the i-th span of the traversal with the contents
of its enclosing resource and scope, the number of logs is the total number of spans,
the empty batch gives one group with no logs, and `spanToLogServiceData` never returns
nil, so that no span is skipped. -/
theorem traceDataToTlsData_one_group_one_log_per_span (t : OpenTracingSpanKind)
    (clock : Nat → Int) (td : Traces) :
    (∀ (now : Int) (span : Span) (rc sc : List LogContent),
        spanToLogServiceData t now span rc sc ≠ none) ∧
    traceDataToTlsData t clock ⟨[]⟩ = { LogGroups := [{ Logs := [] }] } ∧
    ∃ logs : List Log,
      traceDataToTlsData t clock td = { LogGroups := [{ Logs := logs }] } ∧
      logs.length = totalSpans td ∧
      logs.map some = (spansInOrder td).enum.map (fun p =>
        spanToLogServiceData t (clock p.1) p.2.2.2 (resourceToLogContents p.2.1)
          (instrumentationScopeToLogContents p.2.2.1)) := by
  refine ⟨fun now span rc sc => by simp [spanToLogServiceData], rfl, _, rfl, ?_⟩
  obtain ⟨h1, -⟩ := resources_foldl_spec t clock td.resourceSpans ([], 0)
  have hmap : ∀ logs : List Log, logs.length = (logs.map some).length := by
    intro logs; simp
  refine ⟨?_, ?_⟩
  · rw [hmap, h1, totalSpans_eq_length]; simp
  · rw [h1]; simp [List.enum]

/-! ## C2 -/

/-- C2, counterexample: with the three resource entries keyed r1, r2, r3 and the two
scope entries keyed s1, s2, the fourth and fifth keys of the record are s1 and s2, not
OTLPName and OTLPVersion. -/
theorem spanToLogServiceData_keys_counterexample :
    (spanToLogServiceData specSpanKindTokens 0 emptySpan
        [⟨"r1", ""⟩, ⟨"r2", ""⟩, ⟨"r3", ""⟩] [⟨"s1", ""⟩, ⟨"s2", ""⟩]).map
        (fun l => contentKeys l.Contents)
      = some ["r1", "r2", "r3", "s1", "s2", "Name", "TraceID", "SpanID", "TraceState",
          "ParentSpanID", "Kind", "Start", "End", "Duration", "Attributes", "Events",
          "Links", "StatusCode", "StatusDescription"]
    ∧ (spanToLogServiceData specSpanKindTokens 0 emptySpan
        [⟨"r1", ""⟩, ⟨"r2", ""⟩, ⟨"r3", ""⟩] [⟨"s1", ""⟩, ⟨"s2", ""⟩]).map
        (fun l => contentKeys l.Contents)
      ≠ some ["r1", "r2", "r3", "OTLPName", "OTLPVersion", "Name", "TraceID", "SpanID",
          "TraceState", "ParentSpanID", "Kind", "Start", "End", "Duration", "Attributes",
          "Events", "Links", "StatusCode", "StatusDescription"] := by
  constructor
  · rfl
  · simp [spanToLogServiceData, contentKeys]

/-- C2, amended: for every span, every 3-entry resource content list and every 2-entry
scope content list, the record of `spanToLogServiceData` has exactly 19 content pairs
whose keys, in order, are the three resource entry keys, the two scope entry keys, and
then Name, TraceID, SpanID, TraceState, ParentSpanID, Kind, Start, End, Duration,
Attributes, Events, Links, StatusCode, StatusDescription, whatever the span's values
are; the two scope entry keys are OTLPName and OTLPVersion when the scope content list
is the one `instrumentationScopeToLogContents` builds. -/
theorem spanToLogServiceData_keys (t : OpenTracingSpanKind) (now : Int) (span : Span)
    (rc sc : List LogContent) (hrc : rc.length = 3) (hsc : sc.length = 2) :
    (∃ l, spanToLogServiceData t now span rc sc = some l ∧ l.Contents.length = 19 ∧
      contentKeys l.Contents = contentKeys rc ++ contentKeys sc ++
        ["Name", "TraceID", "SpanID", "TraceState", "ParentSpanID", "Kind", "Start", "End",
          "Duration", "Attributes", "Events", "Links", "StatusCode", "StatusDescription"]) ∧
    (∀ scope : InstrumentationScope,
      ∃ l, spanToLogServiceData t now span rc (instrumentationScopeToLogContents scope)
          = some l ∧ l.Contents.length = 19 ∧
        contentKeys l.Contents = contentKeys rc ++
          ["OTLPName", "OTLPVersion", "Name", "TraceID", "SpanID", "TraceState",
            "ParentSpanID", "Kind", "Start", "End", "Duration", "Attributes", "Events",
            "Links", "StatusCode", "StatusDescription"]) := by
  constructor
  · refine ⟨_, rfl, ?_, ?_⟩
    · simp [hrc, hsc]
    · simp [contentKeys]; decide
  · intro scope
    refine ⟨_, rfl, ?_, ?_⟩
    · simp [hrc, instrumentationScopeToLogContents]
    · simp [contentKeys, instrumentationScopeToLogContents]; decide

/-- C2, witness of the amended statement at resource keys Host, ServiceName, Resource
and scope keys s1, s2. -/
theorem spanToLogServiceData_keys_witness :
    (sampleResourceContents.length = 3 ∧ sampleScopeContents.length = 2) ∧
    (∃ l, spanToLogServiceData specSpanKindTokens 0 emptySpan sampleResourceContents
          sampleScopeContents = some l ∧ l.Contents.length = 19 ∧
      contentKeys l.Contents = contentKeys sampleResourceContents ++
        contentKeys sampleScopeContents ++
        ["Name", "TraceID", "SpanID", "TraceState", "ParentSpanID", "Kind", "Start", "End",
          "Duration", "Attributes", "Events", "Links", "StatusCode", "StatusDescription"]) ∧
    (∀ scope : InstrumentationScope,
      ∃ l, spanToLogServiceData specSpanKindTokens 0 emptySpan sampleResourceContents
          (instrumentationScopeToLogContents scope) = some l ∧ l.Contents.length = 19 ∧
        contentKeys l.Contents = contentKeys sampleResourceContents ++
          ["OTLPName", "OTLPVersion", "Name", "TraceID", "SpanID", "TraceState",
            "ParentSpanID", "Kind", "Start", "End", "Duration", "Attributes", "Events",
            "Links", "StatusCode", "StatusDescription"]) :=
  ⟨⟨rfl, rfl⟩, spanToLogServiceData_keys specSpanKindTokens 0 emptySpan
    sampleResourceContents sampleScopeContents rfl rfl⟩

/-! ## Arithmetic of the time fields -/

theorem tdiv_natCast_thousand_twice (n : Nat) :
    (((n : Int).tdiv 1000).tdiv 1000) = ((n / 1000000 : Nat) : Int) := by
  have h1 : (n : Int).tdiv 1000 = ((n / 1000 : Nat) : Int) := (Int.ofNat_tdiv n 1000).symm
  have h2 : ((n / 1000 : Nat) : Int).tdiv 1000 = ((n / 1000 / 1000 : Nat) : Int) :=
    (Int.ofNat_tdiv (n / 1000) 1000).symm
  rw [h1, h2, Nat.div_div_eq_div_mul]

theorem tdiv_neg_natCast_thousand_twice (n : Nat) :
    (((-(n : Int)).tdiv 1000).tdiv 1000) = -((n / 1000000 : Nat) : Int) := by
  rw [Int.neg_tdiv, Int.neg_tdiv, tdiv_natCast_thousand_twice]

theorem toInt64_of_lt (x : Nat) (h : x < 2 ^ 63) : toInt64 x = (x : Int) := by
  have h64 : x % 2 ^ 64 = x := Nat.mod_eq_of_lt (by omega)
  unfold toInt64
  rw [h64, if_pos h]

theorem toInt64_of_ge (x : Nat) (h1 : 2 ^ 63 ≤ x) (h2 : x < 2 ^ 64) :
    toInt64 x = -((2 ^ 64 - x : Nat) : Int) := by
  have h64 : x % 2 ^ 64 = x := Nat.mod_eq_of_lt h2
  have hn : ¬ x < 2 ^ 63 := by omega
  unfold toInt64
  rw [h64, if_neg hn]
  omega

theorem toInt64_ne_zero (x : Nat) (h0 : 0 < x) (h2 : x < 2 ^ 64) : toInt64 x ≠ 0 := by
  by_cases h : x < 2 ^ 63
  · rw [toInt64_of_lt x h]; omega
  · rw [toInt64_of_ge x (by omega) h2]; omega

/-! ## C3 -/

/-- C3, counterexample: for the end timestamp `2 ^ 63` nanoseconds, which is a non-zero
unsigned 64-bit value, the record Time is -9223372036854, while the end timestamp
divided by 1,000,000 is 9223372036854. -/
theorem spanToLogServiceData_time_counterexample :
    (timedSpan 0 (2 ^ 63)).endTimestamp ≠ 0 ∧ (timedSpan 0 (2 ^ 63)).endTimestamp < 2 ^ 64 ∧
    (spanToLogServiceData specSpanKindTokens 0 (timedSpan 0 (2 ^ 63)) [] []).map
        (fun l => l.Time) = some (-9223372036854) ∧
    (spanToLogServiceData specSpanKindTokens 0 (timedSpan 0 (2 ^ 63)) [] []).map
        (fun l => l.Time)
      ≠ some ((((timedSpan 0 (2 ^ 63)).endTimestamp / 1000000 : Nat) : Int)) := by
  refine ⟨by decide, by decide, rfl, ?_⟩
  decide

/-- C3, amended: for every span whose end timestamp is non-zero and below `2 ^ 63`
nanoseconds, the Time of the record produced by `spanToLogServiceData` equals the end
timestamp divided by 1,000,000 using truncating integer division, whatever the clock
reads. -/
theorem spanToLogServiceData_time (t : OpenTracingSpanKind) (now : Int) (span : Span)
    (rc sc : List LogContent) (h0 : span.endTimestamp ≠ 0)
    (h63 : span.endTimestamp < 2 ^ 63) :
    ∃ l, spanToLogServiceData t now span rc sc = some l ∧
      l.Time = ((span.endTimestamp / 1000000 : Nat) : Int) := by
  refine ⟨_, rfl, ?_⟩
  have hne := toInt64_ne_zero span.endTimestamp (by omega) (by omega)
  simp only [hne, if_false]
  rw [toInt64_of_lt _ h63, tdiv_natCast_thousand_twice]

/-- C3, witness of the amended statement: end timestamp 2,000,000,000 ns gives Time
2000. -/
theorem spanToLogServiceData_time_witness :
    ((timedSpan 1000000000 2000000000).endTimestamp ≠ 0 ∧
      (timedSpan 1000000000 2000000000).endTimestamp < 2 ^ 63) ∧
    ∃ l, spanToLogServiceData specSpanKindTokens 0 (timedSpan 1000000000 2000000000) [] []
        = some l ∧
      l.Time = (((timedSpan 1000000000 2000000000).endTimestamp / 1000000 : Nat) : Int) :=
  ⟨⟨by decide, by decide⟩,
    spanToLogServiceData_time specSpanKindTokens 0 (timedSpan 1000000000 2000000000) [] []
      (by decide) (by decide)⟩

/-! ## C4 -/

theorem uint64Sub_of_le (a b : Nat) (hab : b ≤ a) (ha : a < 2 ^ 64) :
    uint64Sub a b = a - b := by
  unfold uint64Sub
  have e : a + 2 ^ 64 - b = (a - b) + 2 ^ 64 := by omega
  rw [e, Nat.add_mod_right, Nat.mod_eq_of_lt (by omega)]

theorem spanField_times (t : OpenTracingSpanKind) (now : Int) (span : Span)
    (rc sc : List LogContent) :
    ∃ l, spanToLogServiceData t now span rc sc = some l ∧
      l.spanField (rc.length + sc.length) "Start"
        = some (FormatUint (span.startTimestamp / 1000)) ∧
      l.spanField (rc.length + sc.length) "End"
        = some (FormatUint (span.endTimestamp / 1000)) ∧
      l.spanField (rc.length + sc.length) "Duration"
        = some (FormatUint (uint64Sub span.endTimestamp span.startTimestamp / 1000)) := by
  refine ⟨_, rfl, ?_, ?_, ?_⟩ <;>
  · simp only [Log.spanField, ← List.append_assoc, ← List.length_append, List.drop_left]
    rfl

/-- C4, counterexample: for start 999 ns and end 1000 ns the fields are Start 0, End 1
and Duration 0, so Duration is not End minus Start. -/
theorem spanToLogServiceData_duration_counterexample :
    (timedSpan 999 1000).startTimestamp ≤ (timedSpan 999 1000).endTimestamp ∧
    (spanToLogServiceData specSpanKindTokens 0 (timedSpan 999 1000) [] []).map
      (fun l => (l.spanField 0 "Start", l.spanField 0 "End", l.spanField 0 "Duration"))
      = some (some (FormatUint 0), some (FormatUint 1), some (FormatUint 0)) ∧
    FormatUint 0 ≠ FormatUint (1 - 0) := by
  refine ⟨by decide, rfl, ?_⟩
  decide

/-- C4, amended: for every span with end timestamp >= start timestamp (both unsigned
64-bit), with Start = start / 1000 and End = end / 1000 the numbers written in the Start
and End fields, the number written in the Duration field is (end - start) / 1000; it
equals End - Start when end mod 1000 >= start mod 1000, and End - Start - 1 otherwise. -/
theorem spanToLogServiceData_duration (t : OpenTracingSpanKind) (now : Int) (span : Span)
    (rc sc : List LogContent) (hle : span.startTimestamp ≤ span.endTimestamp)
    (h64 : span.endTimestamp < 2 ^ 64) :
    ∃ l, spanToLogServiceData t now span rc sc = some l ∧
      l.spanField (rc.length + sc.length) "Start"
        = some (FormatUint (span.startTimestamp / 1000)) ∧
      l.spanField (rc.length + sc.length) "End"
        = some (FormatUint (span.endTimestamp / 1000)) ∧
      l.spanField (rc.length + sc.length) "Duration"
        = some (FormatUint ((span.endTimestamp - span.startTimestamp) / 1000)) ∧
      (span.endTimestamp - span.startTimestamp) / 1000
        = span.endTimestamp / 1000 - span.startTimestamp / 1000
          - (if span.endTimestamp % 1000 < span.startTimestamp % 1000 then 1 else 0) := by
  obtain ⟨l, hl, hs, he, hd⟩ := spanField_times t now span rc sc
  refine ⟨l, hl, hs, he, ?_, ?_⟩
  · rw [hd, uint64Sub_of_le _ _ hle h64]
  · split <;> omega

/-- C4, witness of the amended statement: start 1,000,000,000 ns and end
2,000,000,000 ns. -/
theorem spanToLogServiceData_duration_witness :
    ((timedSpan 1000000000 2000000000).startTimestamp
        ≤ (timedSpan 1000000000 2000000000).endTimestamp ∧
      (timedSpan 1000000000 2000000000).endTimestamp < 2 ^ 64) ∧
    ∃ l, spanToLogServiceData specSpanKindTokens 0 (timedSpan 1000000000 2000000000)
        sampleResourceContents sampleScopeContents = some l ∧
      l.spanField (sampleResourceContents.length + sampleScopeContents.length) "Start"
        = some (FormatUint ((timedSpan 1000000000 2000000000).startTimestamp / 1000)) ∧
      l.spanField (sampleResourceContents.length + sampleScopeContents.length) "End"
        = some (FormatUint ((timedSpan 1000000000 2000000000).endTimestamp / 1000)) ∧
      l.spanField (sampleResourceContents.length + sampleScopeContents.length) "Duration"
        = some (FormatUint (((timedSpan 1000000000 2000000000).endTimestamp
            - (timedSpan 1000000000 2000000000).startTimestamp) / 1000)) ∧
      ((timedSpan 1000000000 2000000000).endTimestamp
          - (timedSpan 1000000000 2000000000).startTimestamp) / 1000
        = (timedSpan 1000000000 2000000000).endTimestamp / 1000
          - (timedSpan 1000000000 2000000000).startTimestamp / 1000
          - (if (timedSpan 1000000000 2000000000).endTimestamp % 1000
              < (timedSpan 1000000000 2000000000).startTimestamp % 1000 then 1 else 0) :=
  ⟨⟨by decide, by decide⟩,
    spanToLogServiceData_duration specSpanKindTokens 0 (timedSpan 1000000000 2000000000)
      sampleResourceContents sampleScopeContents (by decide) (by decide)⟩

/-! ## Hexadecimal encoding -/

theorem hexDigit_isLowerHex (n : Nat) (h : n < 16) : isLowerHex (hexDigit n) = true := by
  interval_cases n <;> decide

theorem hexEncode_length (bs : List Byte) : (hexEncode bs).length = 2 * bs.length := by
  induction bs with
  | nil => rfl
  | cons v rest ih => simp [hexEncode, ih]; omega

theorem hexEncode_isLowerHex (bs : List Byte) : ∀ c ∈ hexEncode bs, isLowerHex c = true := by
  induction bs with
  | nil => intro c hc; simp [hexEncode] at hc
  | cons v rest ih =>
    intro c hc
    simp only [hexEncode, List.mem_cons] at hc
    rcases hc with rfl | rfl | hc
    · exact hexDigit_isLowerHex _ (by omega)
    · exact hexDigit_isLowerHex _ (Nat.mod_lt _ (by decide))
    · exact ih c hc

theorem EncodeToString_eq_empty (bs : List Byte) : EncodeToString bs = "" ↔ bs = [] := by
  constructor
  · intro h
    have hl : (EncodeToString bs).length = 0 := by rw [h]; rfl
    simp only [EncodeToString, String.length_mk, hexEncode_length] at hl
    exact List.length_eq_zero.mp (by omega)
  · rintro rfl; rfl

theorem traceID_isEmpty_iff (id : TraceID) : id.IsEmpty = true ↔ ∀ b ∈ id.val, b = 0 := by
  unfold TraceID.IsEmpty
  rw [decide_eq_true_iff, List.eq_replicate_iff]
  exact ⟨fun h => h.2, fun h => ⟨id.property, h⟩⟩

theorem spanID_isEmpty_iff (id : SpanID) : id.IsEmpty = true ↔ ∀ b ∈ id.val, b = 0 := by
  unfold SpanID.IsEmpty
  rw [decide_eq_true_iff, List.eq_replicate_iff]
  exact ⟨fun h => h.2, fun h => ⟨id.property, h⟩⟩

/-! ## C5 -/

/-- C5: `TraceIDToHexOrEmptyString` and `SpanIDToHexOrEmptyString` return the empty
string exactly when every byte of the identifier is zero; for an identifier with a
non-zero byte the result has exactly 32 characters (trace id) or 16 characters (span
id), each of them in 0-9a-f. -/
theorem hexOrEmptyString_spec (tid : TraceID) (sid : SpanID) :
    ((TraceIDToHexOrEmptyString tid = "" ↔ ∀ b ∈ tid.val, b = 0) ∧
      ((∃ b ∈ tid.val, b ≠ 0) →
        (TraceIDToHexOrEmptyString tid).length = 32 ∧
        ∀ c ∈ (TraceIDToHexOrEmptyString tid).data, isLowerHex c = true)) ∧
    ((SpanIDToHexOrEmptyString sid = "" ↔ ∀ b ∈ sid.val, b = 0) ∧
      ((∃ b ∈ sid.val, b ≠ 0) →
        (SpanIDToHexOrEmptyString sid).length = 16 ∧
        ∀ c ∈ (SpanIDToHexOrEmptyString sid).data, isLowerHex c = true)) := by
  have ht : tid.val ≠ [] := by
    intro h; have := tid.property; rw [h] at this; simp at this
  have hs : sid.val ≠ [] := by
    intro h; have := sid.property; rw [h] at this; simp at this
  refine ⟨⟨?_, ?_⟩, ⟨?_, ?_⟩⟩
  · rw [← traceID_isEmpty_iff]
    unfold TraceIDToHexOrEmptyString
    cases tid.IsEmpty <;> simp [EncodeToString_eq_empty, ht]
  · rintro ⟨b, hb, hb0⟩
    have hne : tid.IsEmpty = false := by
      cases h : tid.IsEmpty
      · rfl
      · exact absurd ((traceID_isEmpty_iff tid).mp h b hb) hb0
    unfold TraceIDToHexOrEmptyString
    rw [hne, if_neg (by decide)]
    refine ⟨?_, hexEncode_isLowerHex _⟩
    simp only [EncodeToString, String.length_mk, hexEncode_length, tid.property]
  · rw [← spanID_isEmpty_iff]
    unfold SpanIDToHexOrEmptyString
    cases sid.IsEmpty <;> simp [EncodeToString_eq_empty, hs]
  · rintro ⟨b, hb, hb0⟩
    have hne : sid.IsEmpty = false := by
      cases h : sid.IsEmpty
      · rfl
      · exact absurd ((spanID_isEmpty_iff sid).mp h b hb) hb0
    unfold SpanIDToHexOrEmptyString
    rw [hne, if_neg (by decide)]
    refine ⟨?_, hexEncode_isLowerHex _⟩
    simp only [EncodeToString, String.length_mk, hexEncode_length, sid.property]

/-! ## C6 -/

theorem fromHexChar_hexDigit (n : Nat) (h : n < 16) : fromHexChar (hexDigit n) = some n := by
  interval_cases n <;> decide

theorem hexDecode_hexEncode (bs : List Byte) : hexDecode (hexEncode bs) = some bs := by
  induction bs with
  | nil => rfl
  | cons v rest ih =>
    have h1 := fromHexChar_hexDigit (v.val / 16) (by omega)
    have h2 := fromHexChar_hexDigit (v.val % 16) (Nat.mod_lt _ (by decide))
    have hv : (Fin.ofNat (v.val / 16 * 16 + v.val % 16) : Byte) = v := by
      apply Fin.ext
      show (v.val / 16 * 16 + v.val % 16) % 256 = v.val
      omega
    simp only [hexEncode, hexDecode, h1, h2, ih, hv]

theorem DecodeString_EncodeToString (bs : List Byte) :
    DecodeString (EncodeToString bs) = some bs := by
  simp only [DecodeString, EncodeToString, hexDecode_hexEncode]

theorem TraceIDToHexOrEmptyString_of_nonzero (tid : TraceID) (h : ∃ b ∈ tid.val, b ≠ 0) :
    TraceIDToHexOrEmptyString tid = EncodeToString tid.val := by
  obtain ⟨b, hb, hb0⟩ := h
  have hne : tid.IsEmpty = false := by
    cases h : tid.IsEmpty
    · rfl
    · exact absurd ((traceID_isEmpty_iff tid).mp h b hb) hb0
  unfold TraceIDToHexOrEmptyString
  rw [hne, if_neg (by decide)]

theorem SpanIDToHexOrEmptyString_of_nonzero (sid : SpanID) (h : ∃ b ∈ sid.val, b ≠ 0) :
    SpanIDToHexOrEmptyString sid = EncodeToString sid.val := by
  obtain ⟨b, hb, hb0⟩ := h
  have hne : sid.IsEmpty = false := by
    cases h : sid.IsEmpty
    · rfl
    · exact absurd ((spanID_isEmpty_iff sid).mp h b hb) hb0
  unfold SpanIDToHexOrEmptyString
  rw [hne, if_neg (by decide)]

/-- C6: for every trace identifier and every span identifier with a non-zero byte,
hex-decoding the string returned by `TraceIDToHexOrEmptyString` or
`SpanIDToHexOrEmptyString` gives back the bytes of the identifier; hence any other
non-zero identifier with the same string is the same identifier (the two functions are
injective on non-zero identifiers). -/
theorem hexOrEmptyString_roundtrip (tid : TraceID) (sid : SpanID)
    (ht : ∃ b ∈ tid.val, b ≠ 0) (hs : ∃ b ∈ sid.val, b ≠ 0) :
    DecodeString (TraceIDToHexOrEmptyString tid) = some tid.val ∧
    DecodeString (SpanIDToHexOrEmptyString sid) = some sid.val ∧
    (∀ tid2 : TraceID, (∃ b ∈ tid2.val, b ≠ 0) →
      TraceIDToHexOrEmptyString tid = TraceIDToHexOrEmptyString tid2 → tid = tid2) ∧
    (∀ sid2 : SpanID, (∃ b ∈ sid2.val, b ≠ 0) →
      SpanIDToHexOrEmptyString sid = SpanIDToHexOrEmptyString sid2 → sid = sid2) := by
  have rt : DecodeString (TraceIDToHexOrEmptyString tid) = some tid.val := by
    rw [TraceIDToHexOrEmptyString_of_nonzero tid ht, DecodeString_EncodeToString]
  have rs : DecodeString (SpanIDToHexOrEmptyString sid) = some sid.val := by
    rw [SpanIDToHexOrEmptyString_of_nonzero sid hs, DecodeString_EncodeToString]
  refine ⟨rt, rs, ?_, ?_⟩
  · intro tid2 h2 heq
    have r2 : DecodeString (TraceIDToHexOrEmptyString tid2) = some tid2.val := by
      rw [TraceIDToHexOrEmptyString_of_nonzero tid2 h2, DecodeString_EncodeToString]
    rw [heq, r2] at rt
    exact Subtype.ext (Option.some.inj rt).symm
  · intro sid2 h2 heq
    have r2 : DecodeString (SpanIDToHexOrEmptyString sid2) = some sid2.val := by
      rw [SpanIDToHexOrEmptyString_of_nonzero sid2 h2, DecodeString_EncodeToString]
    rw [heq, r2] at rs
    exact Subtype.ext (Option.some.inj rs).symm

/-- C6, witness: the trace identifier 00 01 ... 0f and the span identifier
01 02 ... 08. -/
theorem hexOrEmptyString_roundtrip_witness :
    ((∃ b ∈ sampleTraceID.val, b ≠ 0) ∧ (∃ b ∈ sampleSpanID.val, b ≠ 0)) ∧
    DecodeString (TraceIDToHexOrEmptyString sampleTraceID) = some sampleTraceID.val ∧
    DecodeString (SpanIDToHexOrEmptyString sampleSpanID) = some sampleSpanID.val ∧
    (∀ tid2 : TraceID, (∃ b ∈ tid2.val, b ≠ 0) →
      TraceIDToHexOrEmptyString sampleTraceID = TraceIDToHexOrEmptyString tid2 →
        sampleTraceID = tid2) ∧
    (∀ sid2 : SpanID, (∃ b ∈ sid2.val, b ≠ 0) →
      SpanIDToHexOrEmptyString sampleSpanID = SpanIDToHexOrEmptyString sid2 →
        sampleSpanID = sid2) :=
  ⟨⟨⟨1, by decide, by decide⟩, ⟨1, by decide, by decide⟩⟩,
    hexOrEmptyString_roundtrip sampleTraceID sampleSpanID
      ⟨1, by decide, by decide⟩ ⟨1, by decide, by decide⟩⟩

/-! ## C7 -/

/-- C7: `spanKindToShortString` maps the internal, client, server, producer and
consumer kinds to the corresponding `OpenTracingSpanKind` constant and every other kind
value (unspecified or out of range) to the constant for the unspecified kind; with the
tokens of the kind-mapping table these are the strings internal, client, server,
producer, consumer and unspecified. -/
theorem spanKindToShortString_spec (t : OpenTracingSpanKind) (kind : Int)
    (hother : kind ≠ SpanKindInternal ∧ kind ≠ SpanKindClient ∧ kind ≠ SpanKindServer ∧
      kind ≠ SpanKindProducer ∧ kind ≠ SpanKindConsumer) :
    (spanKindToShortString t SpanKindInternal = t.Internal ∧
      spanKindToShortString t SpanKindClient = t.Client ∧
      spanKindToShortString t SpanKindServer = t.Server ∧
      spanKindToShortString t SpanKindProducer = t.Producer ∧
      spanKindToShortString t SpanKindConsumer = t.Consumer ∧
      spanKindToShortString t SpanKindUnspecified = t.Unspecified ∧
      spanKindToShortString t kind = t.Unspecified) ∧
    (spanKindToShortString specSpanKindTokens SpanKindInternal = "internal" ∧
      spanKindToShortString specSpanKindTokens SpanKindClient = "client" ∧
      spanKindToShortString specSpanKindTokens SpanKindServer = "server" ∧
      spanKindToShortString specSpanKindTokens SpanKindProducer = "producer" ∧
      spanKindToShortString specSpanKindTokens SpanKindConsumer = "consumer" ∧
      spanKindToShortString specSpanKindTokens SpanKindUnspecified = "unspecified" ∧
      spanKindToShortString specSpanKindTokens kind = "unspecified") := by
  obtain ⟨h1, h2, h3, h4, h5⟩ := hother
  have hk : ∀ u : OpenTracingSpanKind, spanKindToShortString u kind = u.Unspecified := by
    intro u
    unfold spanKindToShortString
    rw [if_neg h1, if_neg h2, if_neg h3, if_neg h4, if_neg h5]
  exact ⟨⟨rfl, rfl, rfl, rfl, rfl, rfl, hk t⟩, ⟨rfl, rfl, rfl, rfl, rfl, rfl, hk _⟩⟩

/-- C7, witness: the out-of-range kind value 77. -/
theorem spanKindToShortString_spec_witness :
    ((77 : Int) ≠ SpanKindInternal ∧ (77 : Int) ≠ SpanKindClient ∧
      (77 : Int) ≠ SpanKindServer ∧ (77 : Int) ≠ SpanKindProducer ∧
      (77 : Int) ≠ SpanKindConsumer) ∧
    (spanKindToShortString specSpanKindTokens SpanKindInternal = specSpanKindTokens.Internal ∧
      spanKindToShortString specSpanKindTokens SpanKindClient = specSpanKindTokens.Client ∧
      spanKindToShortString specSpanKindTokens SpanKindServer = specSpanKindTokens.Server ∧
      spanKindToShortString specSpanKindTokens SpanKindProducer = specSpanKindTokens.Producer ∧
      spanKindToShortString specSpanKindTokens SpanKindConsumer = specSpanKindTokens.Consumer ∧
      spanKindToShortString specSpanKindTokens SpanKindUnspecified
        = specSpanKindTokens.Unspecified ∧
      spanKindToShortString specSpanKindTokens 77 = specSpanKindTokens.Unspecified) ∧
    (spanKindToShortString specSpanKindTokens SpanKindInternal = "internal" ∧
      spanKindToShortString specSpanKindTokens SpanKindClient = "client" ∧
      spanKindToShortString specSpanKindTokens SpanKindServer = "server" ∧
      spanKindToShortString specSpanKindTokens SpanKindProducer = "producer" ∧
      spanKindToShortString specSpanKindTokens SpanKindConsumer = "consumer" ∧
      spanKindToShortString specSpanKindTokens SpanKindUnspecified = "unspecified" ∧
      spanKindToShortString specSpanKindTokens 77 = "unspecified") :=
  ⟨by decide, spanKindToShortString_spec specSpanKindTokens 77 (by decide)⟩

/-! ## C8 -/

/-- C8: `statusCodeToShortString` returns OK for the ok code, ERROR for the error code
and UNSET for every other status code value, the unset code and any unrecognised
integer included; its result is always one of these three strings. -/
theorem statusCodeToShortString_spec (code other : Int)
    (hother : other ≠ StatusCodeOk ∧ other ≠ StatusCodeError) :
    statusCodeToShortString StatusCodeOk = "OK" ∧
    statusCodeToShortString StatusCodeError = "ERROR" ∧
    statusCodeToShortString StatusCodeUnset = "UNSET" ∧
    statusCodeToShortString other = "UNSET" ∧
    (statusCodeToShortString code = "OK" ∨ statusCodeToShortString code = "ERROR" ∨
      statusCodeToShortString code = "UNSET") := by
  refine ⟨rfl, rfl, rfl, ?_, ?_⟩
  · unfold statusCodeToShortString
    rw [if_neg hother.2, if_neg hother.1]
  · unfold statusCodeToShortString
    by_cases h1 : code = StatusCodeError
    · rw [if_pos h1]; exact Or.inr (Or.inl rfl)
    · rw [if_neg h1]
      by_cases h2 : code = StatusCodeOk
      · rw [if_pos h2]; exact Or.inl rfl
      · rw [if_neg h2]; exact Or.inr (Or.inr rfl)

/-- C8, witness: the code 2 and the unrecognised code -5. -/
theorem statusCodeToShortString_spec_witness :
    ((-5 : Int) ≠ StatusCodeOk ∧ (-5 : Int) ≠ StatusCodeError) ∧
    statusCodeToShortString StatusCodeOk = "OK" ∧
    statusCodeToShortString StatusCodeError = "ERROR" ∧
    statusCodeToShortString StatusCodeUnset = "UNSET" ∧
    statusCodeToShortString (-5) = "UNSET" ∧
    (statusCodeToShortString 2 = "OK" ∨ statusCodeToShortString 2 = "ERROR" ∨
      statusCodeToShortString 2 = "UNSET") :=
  ⟨by decide, statusCodeToShortString_spec 2 (-5) (by decide)⟩

/-! ## Go maps and attribute maps -/

theorem GoMap.get_set {α : Type} (m : GoMap α) (k : String) (v : α) (k2 : String) :
    (m.set k v).get k2 = if k2 = k then some v else m.get k2 := by
  induction m with
  | nil => simp [GoMap.set, GoMap.get]
  | cons kv rest ih =>
    obtain ⟨k0, v0⟩ := kv
    unfold GoMap.set
    by_cases h1 : k = k0
    · subst h1
      rw [if_pos rfl]
      by_cases h2 : k2 = k <;> simp [GoMap.get, h2]
    · rw [if_neg h1]
      by_cases h3 : k < k0
      · rw [if_pos h3]
        by_cases h2 : k2 = k <;> simp [GoMap.get, h2]
      · rw [if_neg h3]
        by_cases h2 : k2 = k
        · subst h2
          simp [GoMap.get, h1, ih]
        · by_cases h4 : k2 = k0
          · subst h4
            simp [GoMap.get, h2]
          · simp [GoMap.get, h2, h4, ih]

theorem GoMap.mem_keys_iff {α : Type} (m : GoMap α) (k : String) :
    k ∈ m.keys ↔ (m.get k).isSome = true := by
  induction m with
  | nil => simp [GoMap.keys, GoMap.get]
  | cons kv rest ih =>
    obtain ⟨k0, v0⟩ := kv
    by_cases h : k = k0
    · simp [GoMap.keys, GoMap.get, h]
    · have ih2 : k ∈ List.map Prod.fst rest ↔ (GoMap.get rest k).isSome = true := ih
      simp [GoMap.keys, GoMap.get, h, ih2]

theorem Map.Get_eq_find (m : Map) (k : String) :
    m.Get k = (m.find? (fun kv => kv.1 == k)).map Prod.snd := by
  induction m with
  | nil => rfl
  | cons kv rest ih =>
    obtain ⟨k0, v0⟩ := kv
    by_cases h : k0 = k <;> simp [Map.Get, List.find?_cons, h, ih]
/-! ## C9 -/

/-- C9, counterexample: for the resource with attributes host.name, service.name and
region the three keys are Host, ServiceName and Resource, not host, service_name and
resource. -/
theorem resourceToLogContents_keys_counterexample :
    contentKeys (resourceToLogContents sampleResource) = ["Host", "ServiceName", "Resource"] ∧
    contentKeys (resourceToLogContents sampleResource) ≠ ["host", "service_name", "resource"] := by
  constructor
  · rfl
  · decide

/-- C9, amended: for every resource, `resourceToLogContents` returns exactly three
entries keyed Host, ServiceName and Resource, in that order, where the Host value is the
string form of the host.name attribute or the empty string when that attribute is
absent, and the ServiceName value is the string form of the service.name attribute or
the empty string when absent. -/
theorem resourceToLogContents_spec (resource : Resource) :
    (resourceToLogContents resource).length = 3 ∧
    resourceToLogContents resource =
      [{ Key := "Host", Value := attributeStringOrEmpty resource.attributes "host.name" },
       { Key := "ServiceName",
         Value := attributeStringOrEmpty resource.attributes "service.name" },
       { Key := "Resource", Value := jsonMarshalStrings (otherResource resource.attributes) }] ∧
    ((∀ kv ∈ resource.attributes, kv.1 ≠ "host.name") →
      lookupContent (resourceToLogContents resource) "Host" = some "") ∧
    ((∀ kv ∈ resource.attributes, kv.1 ≠ "service.name") →
      lookupContent (resourceToLogContents resource) "ServiceName" = some "") := by
  have hmain : resourceToLogContents resource =
      [{ Key := "Host", Value := attributeStringOrEmpty resource.attributes "host.name" },
       { Key := "ServiceName",
         Value := attributeStringOrEmpty resource.attributes "service.name" },
       { Key := "Resource", Value := jsonMarshalStrings (otherResource resource.attributes) }] := by
    have hh := Map.Get_eq_find resource.attributes AttributeHostName
    have hs := Map.Get_eq_find resource.attributes AttributeServiceName
    unfold resourceToLogContents attributeStringOrEmpty
    simp only [hh, hs]
    have e1 : AttributeHostName = "host.name" := rfl
    have e2 : AttributeServiceName = "service.name" := rfl
    rw [e1, e2]
    cases List.find? (fun kv => kv.1 == "host.name") resource.attributes <;>
    cases List.find? (fun kv => kv.1 == "service.name") resource.attributes <;> rfl
  have habsent : ∀ key : String, (∀ kv ∈ resource.attributes, kv.1 ≠ key) →
      attributeStringOrEmpty resource.attributes key = "" := by
    intro key h
    have hf : resource.attributes.find? (fun kv => kv.1 == key) = none := by
      rw [List.find?_eq_none]
      intro kv hkv
      simpa using h kv hkv
    unfold attributeStringOrEmpty
    rw [hf]
  refine ⟨by rw [hmain]; rfl, hmain, ?_, ?_⟩
  · intro h
    rw [hmain, habsent _ h]
    rfl
  · intro h
    rw [hmain, habsent _ h]
    rfl

/-! ## C10 -/

theorem Map.lastValue_cons (kv : String × Value) (rest : Map) (k : String) :
    Map.lastValue (kv :: rest) k
      = match Map.lastValue rest k with
        | some v => some v
        | none => if kv.1 = k then some kv.2 else none := by
  unfold Map.lastValue
  rw [List.reverse_cons, List.find?_append]
  cases h : List.find? (fun kv => kv.1 == k) rest.reverse with
  | some x => simp
  | none =>
    by_cases hk : kv.1 = k <;> simp [List.find?_cons, hk]

theorem otherResource_foldl_get (attrs : Map) :
    ∀ (m0 : GoMap String) (k : String),
      (attrs.foldl (fun (otherResource : GoMap String) kv =>
          if kv.1 = AttributeServiceName ∨ kv.1 = AttributeHostName then otherResource
          else otherResource.set kv.1 kv.2.AsString) m0).get k
        = if k = AttributeServiceName ∨ k = AttributeHostName then m0.get k
          else match attrs.lastValue k with
            | some v => some v.AsString
            | none => m0.get k := by
  induction attrs with
  | nil => intro m0 k; simp [Map.lastValue]
  | cons kv rest ih =>
    intro m0 k
    rw [List.foldl_cons, ih, Map.lastValue_cons]
    by_cases hk : k = AttributeServiceName ∨ k = AttributeHostName
    · rw [if_pos hk, if_pos hk]
      by_cases hkv : kv.1 = AttributeServiceName ∨ kv.1 = AttributeHostName
      · rw [if_pos hkv]
      · rw [if_neg hkv, GoMap.get_set]
        have : k ≠ kv.1 := by
          rintro rfl; exact hkv hk
        rw [if_neg this]
    · rw [if_neg hk, if_neg hk]
      cases hl : Map.lastValue rest k with
      | some v => rfl
      | none =>
        by_cases hkv : kv.1 = AttributeServiceName ∨ kv.1 = AttributeHostName
        · have : kv.1 ≠ k := by
            rintro rfl; exact hk hkv
          simp [hkv, this]
        · by_cases he : kv.1 = k
          · subst he
            simp [hk, GoMap.get_set]
          · have he2 : k ≠ kv.1 := fun h => he h.symm
            simp [hkv, he, he2, GoMap.get_set]

theorem otherResource_get (attrs : Map) (k : String) :
    (otherResource attrs).get k
      = if k = AttributeServiceName ∨ k = AttributeHostName then none
        else (attrs.lastValue k).map Value.AsString := by
  unfold otherResource
  rw [otherResource_foldl_get]
  by_cases hk : k = AttributeServiceName ∨ k = AttributeHostName
  · rw [if_pos hk, if_pos hk]; rfl
  · rw [if_neg hk, if_neg hk]
    cases Map.lastValue attrs k <;> rfl

theorem Map.lastValue_isSome_iff (attrs : Map) (k : String) :
    (attrs.lastValue k).isSome = true ↔ k ∈ attrs.map Prod.fst := by
  unfold Map.lastValue
  rw [Option.isSome_map', List.find?_isSome]
  simp only [List.mem_reverse, beq_iff_eq, List.mem_map]

theorem Map.lastValue_eq_Get_of_nodup (attrs : Map) (k : String)
    (h : (attrs.map Prod.fst).Nodup) : attrs.lastValue k = attrs.Get k := by
  induction attrs with
  | nil => rfl
  | cons kv rest ih =>
    obtain ⟨k0, v0⟩ := kv
    rw [List.map_cons, List.nodup_cons] at h
    rw [Map.lastValue_cons, ih h.2]
    by_cases hk : k0 = k
    · subst hk
      have hn : Map.lastValue rest k0 = none := by
        cases hl : Map.lastValue rest k0 with
        | none => rfl
        | some v =>
          have := (Map.lastValue_isSome_iff rest k0).mp (by rw [hl]; rfl)
          exact absurd this h.1
      rw [← ih h.2, hn]
      simp [Map.Get]
    · simp only [Map.Get, hk, if_false]
      cases Map.Get rest k <;> rfl

theorem GoMap.mem_keys_set {α : Type} (m : GoMap α) (k : String) (v : α) (x : String) :
    x ∈ (m.set k v).keys ↔ x = k ∨ x ∈ m.keys := by
  rw [GoMap.mem_keys_iff, GoMap.mem_keys_iff, GoMap.get_set]
  by_cases h : x = k <;> simp [h]

theorem GoMap.set_sorted {α : Type} (m : GoMap α) (k : String) (v : α)
    (h : m.keys.Pairwise (· < ·)) : (m.set k v).keys.Pairwise (· < ·) := by
  induction m with
  | nil => simp [GoMap.set, GoMap.keys]
  | cons kv rest ih =>
    obtain ⟨k0, v0⟩ := kv
    have h0 : (k0 :: GoMap.keys rest).Pairwise (· < ·) := h
    rw [List.pairwise_cons] at h0
    unfold GoMap.set
    by_cases h1 : k = k0
    · subst h1
      rw [if_pos rfl]
      exact h
    · rw [if_neg h1]
      by_cases h3 : k < k0
      · rw [if_pos h3]
        show (k :: k0 :: GoMap.keys rest).Pairwise (· < ·)
        rw [List.pairwise_cons]
        refine ⟨?_, h⟩
        intro x hx
        rcases List.mem_cons.mp hx with rfl | hx
        · exact h3
        · exact lt_trans h3 (h0.1 x hx)
      · rw [if_neg h3]
        show (k0 :: GoMap.keys (GoMap.set rest k v)).Pairwise (· < ·)
        rw [List.pairwise_cons]
        refine ⟨?_, ih h0.2⟩
        intro x hx
        rcases (GoMap.mem_keys_set rest k v x).mp hx with rfl | hx
        · exact lt_of_le_of_ne (not_lt.mp h3) (fun e => h1 e.symm)
        · exact h0.1 x hx

theorem otherResource_sorted (attrs : Map) : (otherResource attrs).keys.Pairwise (· < ·) := by
  unfold otherResource
  have : ∀ m0 : GoMap String, m0.keys.Pairwise (· < ·) →
      (attrs.foldl (fun (otherResource : GoMap String) kv =>
          if kv.1 = AttributeServiceName ∨ kv.1 = AttributeHostName then otherResource
          else otherResource.set kv.1 kv.2.AsString) m0).keys.Pairwise (· < ·) := by
    induction attrs with
    | nil => intro m0 h; exact h
    | cons kv rest ih =>
      intro m0 h
      rw [List.foldl_cons]
      apply ih
      split
      · exact h
      · exact GoMap.set_sorted _ _ _ h
  exact this [] List.Pairwise.nil
theorem otherResource_mem_keys (attrs : Map) (k : String) :
    k ∈ (otherResource attrs).keys
      ↔ k ∈ attrs.map Prod.fst ∧ k ≠ "host.name" ∧ k ≠ "service.name" := by
  rw [GoMap.mem_keys_iff, otherResource_get, ← Map.lastValue_isSome_iff]
  have e1 : AttributeHostName = "host.name" := rfl
  have e2 : AttributeServiceName = "service.name" := rfl
  rw [e1, e2]
  by_cases hk : k = "service.name" ∨ k = "host.name"
  · rw [if_pos hk]
    rcases hk with h | h <;> simp [h]
  · rw [if_neg hk]
    have h1 : k ≠ "host.name" := fun h => hk (Or.inr h)
    have h2 : k ≠ "service.name" := fun h => hk (Or.inl h)
    simp [h1, h2]

/-- C10: for every resource attribute map, the third entry of `resourceToLogContents`
is the serialisation of the object `otherResource`, whose keys (each present once) are
exactly the attribute keys other than host.name and service.name and which maps each
such key to the string representation of its attribute value (the value of the last
pair with the key, which is the value `Get` returns when no key is repeated); it
contains neither host.name nor service.name and is the empty object when no other
attribute exists. -/
theorem resourceToLogContents_otherResource (resource : Resource) :
    (resourceToLogContents resource)[2]?
      = some { Key := "Resource",
               Value := jsonMarshalStrings (otherResource resource.attributes) } ∧
    (otherResource resource.attributes).keys.Pairwise (· < ·) ∧
    (∀ k : String, k ∈ (otherResource resource.attributes).keys
      ↔ k ∈ resource.attributes.map Prod.fst ∧ k ≠ "host.name" ∧ k ≠ "service.name") ∧
    (∀ k : String, k ∈ (otherResource resource.attributes).keys →
      (otherResource resource.attributes).get k
        = (resource.attributes.lastValue k).map Value.AsString) ∧
    ((resource.attributes.map Prod.fst).Nodup →
      ∀ k : String, k ∈ (otherResource resource.attributes).keys →
        (otherResource resource.attributes).get k
          = (resource.attributes.Get k).map Value.AsString) ∧
    "host.name" ∉ (otherResource resource.attributes).keys ∧
    "service.name" ∉ (otherResource resource.attributes).keys ∧
    ((∀ kv ∈ resource.attributes, kv.1 = "host.name" ∨ kv.1 = "service.name") →
      otherResource resource.attributes = [] ∧
      jsonMarshalStrings (otherResource resource.attributes) = "\x7b\x7d") := by
  have hget : ∀ k : String, k ∈ (otherResource resource.attributes).keys →
      (otherResource resource.attributes).get k
        = (resource.attributes.lastValue k).map Value.AsString := by
    intro k hk
    have hx := (otherResource_mem_keys _ k).mp hk
    rw [otherResource_get]
    have hn : ¬ (k = AttributeServiceName ∨ k = AttributeHostName) := by
      rintro (h | h)
      · exact hx.2.2 h
      · exact hx.2.1 h
    rw [if_neg hn]
  refine ⟨rfl, otherResource_sorted _, otherResource_mem_keys _, hget, ?_, ?_, ?_, ?_⟩
  · intro hnd k hk
    rw [hget k hk, Map.lastValue_eq_Get_of_nodup _ _ hnd]
  · intro h
    exact ((otherResource_mem_keys _ _).mp h).2.1 rfl
  · intro h
    exact ((otherResource_mem_keys _ _).mp h).2.2 rfl
  · intro h
    have hnil : otherResource resource.attributes = [] := by
      cases hm : otherResource resource.attributes with
      | nil => rfl
      | cons kv rest =>
        have hk : kv.1 ∈ (otherResource resource.attributes).keys := by
          rw [hm]; simp [GoMap.keys]
        obtain ⟨hmem, h1, h2⟩ := (otherResource_mem_keys _ _).mp hk
        obtain ⟨x, hx, hxk⟩ := List.mem_map.mp hmem
        rcases h x hx with e | e
        · exact absurd (hxk ▸ e) h1
        · exact absurd (hxk ▸ e) h2
    refine ⟨hnil, ?_⟩
    rw [hnil]
    decide

/-! ## The records of a batch, by position -/

theorem traceDataToTlsData_logs (t : OpenTracingSpanKind) (clock : Nat → Int) (td : Traces) :
    ∃ logs : List Log,
      traceDataToTlsData t clock td = { LogGroups := [{ Logs := logs }] } ∧
      logs.map some = (spansInOrder td).enum.map (fun p =>
        spanToLogServiceData t (clock p.1) p.2.2.2 (resourceToLogContents p.2.1)
          (instrumentationScopeToLogContents p.2.2.1)) := by
  refine ⟨_, rfl, ?_⟩
  obtain ⟨h1, -⟩ := resources_foldl_spec t clock td.resourceSpans ([], 0)
  rw [h1]; simp [List.enum]

theorem log_at_index {α : Type} (logs : List Log) (xs : List α) (F : Nat × α → Option Log)
    (h : logs.map some = xs.enum.map F) (i : Nat) (l : Log) (p : α)
    (hl : logs[i]? = some l) (hp : xs[i]? = some p) : F (i, p) = some l := by
  have e : (logs.map some)[i]? = (xs.enum.map F)[i]? := by rw [h]
  rw [List.getElem?_map, List.getElem?_map, List.getElem?_enum, hl, hp] at e
  simpa using e.symm

theorem logs_length_eq {α : Type} (logs : List Log) (xs : List α) (F : Nat × α → Option Log)
    (h : logs.map some = xs.enum.map F) : logs.length = xs.length := by
  have := congrArg List.length h
  simpa using this

theorem resourceToLogContents_length (resource : Resource) :
    (resourceToLogContents resource).length = 3 := rfl

/-! ## C11 -/

/-- C11: in the output of `traceDataToTlsData`, the first three content entries of every
record are `resourceToLogContents` of the resource that encloses the record's span, and
the fourth and fifth entries are OTLPName with the enclosing scope's name and
OTLPVersion with its version; hence two records whose spans lie under the same resource
have equal first three entries, and two records whose spans lie under the same resource
and scope have equal first five. -/
theorem traceDataToTlsData_shared_entries (t : OpenTracingSpanKind) (clock : Nat → Int)
    (td : Traces) :
    ∃ logs : List Log,
      traceDataToTlsData t clock td = { LogGroups := [{ Logs := logs }] } ∧
      logs.length = (spansInOrder td).length ∧
      (∀ (i : Nat) (l : Log) (r : Resource) (s : InstrumentationScope) (sp : Span),
        logs[i]? = some l → (spansInOrder td)[i]? = some (r, s, sp) →
          l.Contents.take 3 = resourceToLogContents r ∧
          (l.Contents.drop 3).take 2
            = [{ Key := "OTLPName", Value := s.name }, { Key := "OTLPVersion", Value := s.version }]) ∧
      (∀ (i j : Nat) (li lj : Log) (r : Resource) (si sj : InstrumentationScope)
          (spi spj : Span),
        logs[i]? = some li → logs[j]? = some lj →
        (spansInOrder td)[i]? = some (r, si, spi) → (spansInOrder td)[j]? = some (r, sj, spj) →
          li.Contents.take 3 = lj.Contents.take 3 ∧
          (si = sj → li.Contents.take 5 = lj.Contents.take 5)) := by
  obtain ⟨logs, hout, hlogs⟩ := traceDataToTlsData_logs t clock td
  have key : ∀ (i : Nat) (l : Log) (r : Resource) (s : InstrumentationScope) (sp : Span),
      logs[i]? = some l → (spansInOrder td)[i]? = some (r, s, sp) →
        ∃ rest, l.Contents = resourceToLogContents r ++
          (instrumentationScopeToLogContents s ++ rest) := by
    intro i l r s sp hl hp
    have h := log_at_index logs _ _ hlogs i l (r, s, sp) hl hp
    simp only [spanToLogServiceData, Option.some.injEq] at h
    subst h
    exact ⟨_, List.append_assoc _ _ _⟩
  refine ⟨logs, hout, logs_length_eq _ _ _ hlogs, ?_, ?_⟩
  · intro i l r s sp hl hp
    obtain ⟨rest, hc⟩ := key i l r s sp hl hp
    rw [hc]
    constructor
    · rw [List.take_left' (resourceToLogContents_length r)]
    · rw [List.drop_left' (resourceToLogContents_length r)]
      rfl
  · intro i j li lj r si sj spi spj hli hlj hpi hpj
    obtain ⟨ri, hi⟩ := key i li r si spi hli hpi
    obtain ⟨rj, hj⟩ := key j lj r sj spj hlj hpj
    rw [hi, hj]
    constructor
    · rw [List.take_left' (resourceToLogContents_length r),
        List.take_left' (resourceToLogContents_length r)]
    · rintro rfl
      rw [← List.append_assoc, ← List.append_assoc]
      have h5 : (resourceToLogContents r ++ instrumentationScopeToLogContents si).length = 5 := rfl
      rw [List.take_left' h5, List.take_left' h5]

/-! ## C12 -/

/-- C12, counterexample: the record of the example batch has no content pair keyed
host, service_name or resource. -/
theorem exampleBatch_keys_counterexample :
    (traceDataToTlsData specSpanKindTokens (fun _ => 0) exampleBatch).LogGroups.map
      (fun g => g.Logs.map (fun l =>
        (lookupContent l.Contents "host", lookupContent l.Contents "service_name",
          lookupContent l.Contents "resource")))
      = [[(none, none, none)]] := by
  rfl

/-- C12, amended: for the example batch `traceDataToTlsData` yields a single record with
Time 2000 whose contents include Host = h1, ServiceName = s1, Resource = the object
with region x, OTLPName = lib, OTLPVersion = 1.0, TraceID = the empty string,
SpanID = 0102030405060708, Kind = the token of the server kind (server with the tokens
of the kind-mapping table), Start = 1000000, End = 2000000, Duration = 1000000 and
StatusCode = OK, whatever the clock reads. -/
theorem exampleBatch_record (t : OpenTracingSpanKind) (clock : Nat → Int) :
    ∃ l : Log,
      traceDataToTlsData t clock exampleBatch = { LogGroups := [{ Logs := [l] }] } ∧
      l.Time = 2000 ∧
      lookupContent l.Contents "Host" = some "h1" ∧
      lookupContent l.Contents "ServiceName" = some "s1" ∧
      lookupContent l.Contents "Resource" = some "\x7b\x22region\x22:\x22x\x22\x7d" ∧
      lookupContent l.Contents "OTLPName" = some "lib" ∧
      lookupContent l.Contents "OTLPVersion" = some "1.0" ∧
      lookupContent l.Contents "TraceID" = some "" ∧
      lookupContent l.Contents "SpanID" = some "0102030405060708" ∧
      lookupContent l.Contents "Kind" = some t.Server ∧
      lookupContent l.Contents "Start" = some "1000000" ∧
      lookupContent l.Contents "End" = some "2000000" ∧
      lookupContent l.Contents "Duration" = some "1000000" ∧
      lookupContent l.Contents "StatusCode" = some "OK" ∧
      specSpanKindTokens.Server = "server" := by
  exact ⟨_, rfl, rfl, rfl, rfl, rfl, rfl, rfl, rfl, rfl, rfl, rfl, rfl, rfl, rfl, rfl⟩

/-! ## The uploader -/

theorem assertString_snd (ctx : Context) (key : String) :
    (assertString (ctx key)).2 = holdsString ctx key := by
  unfold holdsString
  rcases ctx key with _ | (s | o) <;> rfl

theorem assertString_of_str (x : Option Any) (s : String) (h : x = some (.str s)) :
    assertString x = (s, true) := by
  rw [h]; rfl

theorem pushToTls_eq {ε : Type} (putLogs : PutLogs ε) (c : TlsPusher) (ctx : Context)
    (logPb : LogGroupList) :
    pushToTls putLogs c ctx logPb =
      if holdsString ctx "tracetopic" && holdsString ctx "ak" && holdsString ctx "sk" &&
          holdsString ctx "region" then
        { calls := [(NewClient c.EndPoint (assertString (ctx "ak")).1
                      (assertString (ctx "sk")).1 "" (assertString (ctx "region")).1,
                    buildTlsPutLogsReq (assertString (ctx "tracetopic")).1 logPb)],
          err := putLogs (NewClient c.EndPoint (assertString (ctx "ak")).1
                      (assertString (ctx "sk")).1 "" (assertString (ctx "region")).1)
                    (buildTlsPutLogsReq (assertString (ctx "tracetopic")).1 logPb),
          pusher := c }
      else
        { calls := [(NewClient c.EndPoint c.ConfigAK c.ConfigSK "" c.ConfigRegion,
                    buildTlsPutLogsReq c.ConfigTopicID logPb)],
          err := putLogs (NewClient c.EndPoint c.ConfigAK c.ConfigSK "" c.ConfigRegion)
                    (buildTlsPutLogsReq c.ConfigTopicID logPb),
          pusher := c } := by
  have h1 := assertString_snd ctx "tracetopic"
  have h2 := assertString_snd ctx "ak"
  have h3 := assertString_snd ctx "sk"
  have h4 := assertString_snd ctx "region"
  have k1 : TlsTraceTopicKey = "tracetopic" := rfl
  have k2 : TlsAKKey = "ak" := rfl
  have k3 : TlsSKKey = "sk" := rfl
  have k4 : TlsRegionKey = "region" := rfl
  unfold pushToTls
  rw [k1, k2, k3, k4, ← h1, ← h2, ← h3, ← h4]
  rcases assertString (ctx "tracetopic") with ⟨a1, b1⟩
  rcases assertString (ctx "ak") with ⟨a2, b2⟩
  rcases assertString (ctx "sk") with ⟨a3, b3⟩
  rcases assertString (ctx "region") with ⟨a4, b4⟩
  cases b1 <;> cases b2 <;> cases b3 <;> cases b4 <;> rfl
/-! ## C13 -/

/-- C13: for every pusher and every call context in which at least one of the four
override keys tracetopic, ak, sk, region is missing or does not hold a string,
`pushToTls` builds the client and the put-logs request from exactly the pusher's
configured topic, access key, secret key and region: no override value is used, the
ones that are present included. The same holds for the context with no override at
all. -/
theorem pushToTls_uses_config {ε : Type} (putLogs : PutLogs ε) (c : TlsPusher)
    (ctx : Context) (logPb : LogGroupList)
    (h : (holdsString ctx "tracetopic" && holdsString ctx "ak" && holdsString ctx "sk" &&
      holdsString ctx "region") = false) :
    (pushToTls putLogs c ctx logPb).calls =
      [({ endpoint := c.EndPoint, accessKeyID := c.ConfigAK, accessKeySecret := c.ConfigSK,
          securityToken := "", region := c.ConfigRegion },
        { TopicID := c.ConfigTopicID, HashKey := "", CompressType := "", LogBody := logPb })] ∧
    (pushToTls putLogs c (fun _ => none) logPb).calls =
      [({ endpoint := c.EndPoint, accessKeyID := c.ConfigAK, accessKeySecret := c.ConfigSK,
          securityToken := "", region := c.ConfigRegion },
        { TopicID := c.ConfigTopicID, HashKey := "", CompressType := "", LogBody := logPb })] := by
  constructor
  · rw [pushToTls_eq, h]
    rfl
  · rfl

/-- C13, witness: a context that sets topic, access key and region to strings and the
secret key to a value of another type. -/
theorem pushToTls_uses_config_witness :
    (holdsString partialContext "tracetopic" && holdsString partialContext "ak" &&
      holdsString partialContext "sk" && holdsString partialContext "region") = false ∧
    (pushToTls failingPutLogs samplePusher partialContext ⟨[]⟩).calls =
      [({ endpoint := samplePusher.EndPoint, accessKeyID := samplePusher.ConfigAK,
          accessKeySecret := samplePusher.ConfigSK, securityToken := "",
          region := samplePusher.ConfigRegion },
        { TopicID := samplePusher.ConfigTopicID, HashKey := "", CompressType := "",
          LogBody := ⟨[]⟩ })] ∧
    (pushToTls failingPutLogs samplePusher (fun _ => none) ⟨[]⟩).calls =
      [({ endpoint := samplePusher.EndPoint, accessKeyID := samplePusher.ConfigAK,
          accessKeySecret := samplePusher.ConfigSK, securityToken := "",
          region := samplePusher.ConfigRegion },
        { TopicID := samplePusher.ConfigTopicID, HashKey := "", CompressType := "",
          LogBody := ⟨[]⟩ })] :=
  ⟨by decide, pushToTls_uses_config failingPutLogs samplePusher partialContext ⟨[]⟩ (by decide)⟩

/-! ## C14 -/

/-- C14: for every pusher and every call context in which the four override keys hold
the strings topic, ak, sk, region, `pushToTls` uses these four values for the client and
the request, while the endpoint of the client is the pusher's configured EndPoint; and
for this context as for any other, the pusher's own fields are the same after the call
as before. -/
theorem pushToTls_uses_override {ε : Type} (putLogs : PutLogs ε) (c : TlsPusher)
    (ctx other : Context) (logPb : LogGroupList) (topic ak sk region : String)
    (htopic : ctx "tracetopic" = some (.str topic)) (hak : ctx "ak" = some (.str ak))
    (hsk : ctx "sk" = some (.str sk)) (hregion : ctx "region" = some (.str region)) :
    (pushToTls putLogs c ctx logPb).calls =
      [({ endpoint := c.EndPoint, accessKeyID := ak, accessKeySecret := sk,
          securityToken := "", region := region },
        { TopicID := topic, HashKey := "", CompressType := "", LogBody := logPb })] ∧
    (pushToTls putLogs c ctx logPb).pusher = c ∧
    (pushToTls putLogs c other logPb).pusher = c := by
  have hall : (holdsString ctx "tracetopic" && holdsString ctx "ak" && holdsString ctx "sk" &&
      holdsString ctx "region") = true := by
    simp [holdsString, htopic, hak, hsk, hregion]
  refine ⟨?_, ?_, ?_⟩
  · rw [pushToTls_eq, hall, htopic, hak, hsk, hregion]
    rfl
  · rw [pushToTls_eq]; split <;> rfl
  · rw [pushToTls_eq]; split <;> rfl

/-- C14, witness: a context that sets the four override keys to strings, and a context
that does not. -/
theorem pushToTls_uses_override_witness :
    (fullContext "tracetopic" = some (.str "topic1") ∧ fullContext "ak" = some (.str "ak1") ∧
      fullContext "sk" = some (.str "sk1") ∧ fullContext "region" = some (.str "region1")) ∧
    (pushToTls failingPutLogs samplePusher fullContext ⟨[]⟩).calls =
      [({ endpoint := samplePusher.EndPoint, accessKeyID := "ak1", accessKeySecret := "sk1",
          securityToken := "", region := "region1" },
        { TopicID := "topic1", HashKey := "", CompressType := "", LogBody := ⟨[]⟩ })] ∧
    (pushToTls failingPutLogs samplePusher fullContext ⟨[]⟩).pusher = samplePusher ∧
    (pushToTls failingPutLogs samplePusher partialContext ⟨[]⟩).pusher = samplePusher :=
  ⟨⟨rfl, rfl, rfl, rfl⟩,
    pushToTls_uses_override failingPutLogs samplePusher fullContext partialContext ⟨[]⟩
      "topic1" "ak1" "sk1" "region1" rfl rfl rfl rfl⟩

/-! ## C15 -/

theorem NewTlsPusher_some (cfg : Config) :
    NewTlsPusher (some cfg) =
      if cfg.Endpoint = "" ∨ cfg.TopicID = "" ∨ cfg.AccessKey = "" ∨ cfg.SecretKey = "" ∨
          cfg.Region = "" then
        .error "missing volcengine tls trace params: Endpoint, TopicID, AccessKey, SecretKey, Region"
      else
        .ok { EndPoint := cfg.Endpoint, ConfigAK := cfg.AccessKey, ConfigSK := cfg.SecretKey,
              ConfigTopicID := cfg.TopicID, ConfigRegion := cfg.Region } := rfl

/-- C15: `NewTlsPusher` returns an error, and no pusher, if and only if the config is
nil or at least one of Endpoint, TopicID, AccessKey, SecretKey, Region is the empty
string; when all five are non-empty it succeeds and the pusher's EndPoint,
ConfigTopicID, ConfigAK, ConfigSK and ConfigRegion are the corresponding config
fields. -/
theorem NewTlsPusher_spec (config : Option Config) :
    ((∃ msg, NewTlsPusher config = .error msg) ↔
      (config = none ∨ ∃ cfg, config = some cfg ∧
        (cfg.Endpoint = "" ∨ cfg.TopicID = "" ∨ cfg.AccessKey = "" ∨ cfg.SecretKey = "" ∨
          cfg.Region = ""))) ∧
    (∀ cfg : Config, config = some cfg →
      cfg.Endpoint ≠ "" → cfg.TopicID ≠ "" → cfg.AccessKey ≠ "" → cfg.SecretKey ≠ "" →
      cfg.Region ≠ "" →
        NewTlsPusher config = .ok
          { EndPoint := cfg.Endpoint, ConfigAK := cfg.AccessKey, ConfigSK := cfg.SecretKey,
            ConfigTopicID := cfg.TopicID, ConfigRegion := cfg.Region }) := by
  constructor
  · cases config with
    | none =>
      constructor
      · intro _; exact Or.inl rfl
      · intro _; exact ⟨_, rfl⟩
    | some cfg =>
      by_cases h : cfg.Endpoint = "" ∨ cfg.TopicID = "" ∨ cfg.AccessKey = "" ∨
          cfg.SecretKey = "" ∨ cfg.Region = ""
      · constructor
        · intro _; exact Or.inr ⟨cfg, rfl, h⟩
        · intro _
          rw [NewTlsPusher_some, if_pos h]
          exact ⟨_, rfl⟩
      · constructor
        · rintro ⟨msg, hm⟩
          rw [NewTlsPusher_some, if_neg h] at hm
          cases hm
        · rintro (hn | ⟨cfg2, hc, h2⟩)
          · cases hn
          · cases hc
            exact absurd h2 h
  · intro cfg hc h1 h2 h3 h4 h5
    subst hc
    have h : ¬ (cfg.Endpoint = "" ∨ cfg.TopicID = "" ∨ cfg.AccessKey = "" ∨
        cfg.SecretKey = "" ∨ cfg.Region = "") := by
      rintro (h | h | h | h | h)
      · exact h1 h
      · exact h2 h
      · exact h3 h
      · exact h4 h
      · exact h5 h
    rw [NewTlsPusher_some, if_neg h]

/-! ## C16 -/

/-- C16: with the remote put-logs capability as a parameter, `pushToTls` invokes it
exactly once per call, with a request whose TopicID is the resolved topic (the string
under tracetopic when the four override keys hold strings, the configured topic
otherwise) and whose body is the given log group list, and returns the error result of
that invocation unchanged: nil when it succeeds, the same error when it fails.
`pushTraceData` is `pushToTls` on the translated batch. -/
theorem pushToTls_one_call {ε : Type} (putLogs : PutLogs ε) (c : TlsPusher) (ctx : Context)
    (logPb : LogGroupList) :
    (∃ cli req,
      (pushToTls putLogs c ctx logPb).calls = [(cli, req)] ∧
      req.TopicID =
        (if holdsString ctx "tracetopic" && holdsString ctx "ak" && holdsString ctx "sk" &&
            holdsString ctx "region" then (assertString (ctx "tracetopic")).1
          else c.ConfigTopicID) ∧
      req.LogBody = logPb ∧
      (pushToTls putLogs c ctx logPb).err = putLogs cli req ∧
      (putLogs cli req = none → (pushToTls putLogs c ctx logPb).err = none) ∧
      (∀ e, putLogs cli req = some e → (pushToTls putLogs c ctx logPb).err = some e)) ∧
    (∀ (t : OpenTracingSpanKind) (clock : Nat → Int) (trace : Traces),
      pushTraceData t clock putLogs c ctx trace
        = pushToTls putLogs c ctx (traceDataToTlsData t clock trace)) := by
  refine ⟨?_, fun t clock trace => rfl⟩
  rw [pushToTls_eq]
  split
  · exact ⟨_, _, rfl, rfl, rfl, rfl, fun h => h, fun e h => h⟩
  · exact ⟨_, _, rfl, rfl, rfl, rfl, fun h => h, fun e h => h⟩

/-! ## C17 -/

theorem tdiv_thousand_twice (x : Int) : (x.tdiv 1000).tdiv 1000 = x.tdiv 1000000 := by
  rcases Int.eq_nat_or_neg x with ⟨n, rfl | rfl⟩
  · rw [tdiv_natCast_thousand_twice]
    exact Int.ofNat_tdiv n 1000000
  · rw [tdiv_neg_natCast_thousand_twice, Int.neg_tdiv]
    exact congrArg _ (Int.ofNat_tdiv n 1000000)

theorem spanField_end (t : OpenTracingSpanKind) (now : Int) (span : Span)
    (rc sc : List LogContent) :
    ∃ l, spanToLogServiceData t now span rc sc = some l ∧
      l.Time = ((if toInt64 span.endTimestamp = 0 then now
        else toInt64 span.endTimestamp).tdiv 1000).tdiv 1000 ∧
      l.spanField (rc.length + sc.length) "End"
        = some (FormatUint (span.endTimestamp / 1000)) := by
  obtain ⟨l, hl, -, he, -⟩ := spanField_times t now span rc sc
  refine ⟨l, hl, ?_, he⟩
  simp only [spanToLogServiceData, Option.some.injEq] at hl
  rw [← hl]

/-- C17, counterexample: when the clock reads 0 (or any value below 1,000,000 ns) the
record Time of a span with end timestamp zero is 0, which is not positive. -/
theorem spanToLogServiceData_now_counterexample :
    emptySpan.endTimestamp = 0 ∧
    (spanToLogServiceData specSpanKindTokens 0 emptySpan [] []).map (fun l => l.Time)
      = some 0 ∧
    (spanToLogServiceData specSpanKindTokens 999999 emptySpan [] []).map (fun l => l.Time)
      = some 0 ∧
    (spanToLogServiceData specSpanKindTokens 0 emptySpan [] []).map
      (fun l => decide (0 < l.Time)) = some false := by
  exact ⟨rfl, rfl, rfl, rfl⟩

/-- C17, amended: for every span whose end timestamp is zero, with the wall clock as
the explicit input `now` (nanoseconds since the epoch), the record Time equals `now`
divided by 1,000,000 (truncating), it is a positive integer whenever `now` is at least
1,000,000, that is one millisecond after the epoch, and the End field of the same
record is still 0. -/
theorem spanToLogServiceData_now (t : OpenTracingSpanKind) (now : Int) (span : Span)
    (rc sc : List LogContent) (h0 : span.endTimestamp = 0) :
    ∃ l, spanToLogServiceData t now span rc sc = some l ∧
      l.Time = now.tdiv 1000000 ∧
      (0 ≤ now → l.Time = now / 1000000) ∧
      (1000000 ≤ now → 0 < l.Time) ∧
      l.spanField (rc.length + sc.length) "End" = some "0" := by
  obtain ⟨l, hl, ht, he⟩ := spanField_end t now span rc sc
  have hz : toInt64 span.endTimestamp = 0 := by rw [h0]; rfl
  rw [hz, if_pos rfl, tdiv_thousand_twice] at ht
  refine ⟨l, hl, ht, ?_, ?_, ?_⟩
  · intro hn
    rw [ht, Int.tdiv_eq_ediv hn (by decide)]
  · intro hn
    rw [ht, Int.tdiv_eq_ediv (by omega) (by decide)]
    omega
  · rw [he, h0]
    rfl

/-- C17, witness: the empty span and a clock reading of 1,700,000,000,123,456,789 ns. -/
theorem spanToLogServiceData_now_witness :
    emptySpan.endTimestamp = 0 ∧
    ∃ l, spanToLogServiceData specSpanKindTokens 1700000000123456789 emptySpan
        sampleResourceContents sampleScopeContents = some l ∧
      l.Time = (1700000000123456789 : Int).tdiv 1000000 ∧
      (0 ≤ (1700000000123456789 : Int) → l.Time = 1700000000123456789 / 1000000) ∧
      (1000000 ≤ (1700000000123456789 : Int) → 0 < l.Time) ∧
      l.spanField (sampleResourceContents.length + sampleScopeContents.length) "End"
        = some "0" :=
  ⟨rfl, spanToLogServiceData_now specSpanKindTokens 1700000000123456789 emptySpan
    sampleResourceContents sampleScopeContents rfl⟩

/-! ## C18 -/

theorem uint64Sub_of_lt (a b : Nat) (hab : a < b) (hb : b < 2 ^ 64) :
    uint64Sub a b = 2 ^ 64 - (b - a) ∧
    uint64Sub a b = ((((a : Int) - (b : Int)) % 2 ^ 64).toNat) := by
  unfold uint64Sub
  have e : (a + 2 ^ 64 - b) % 2 ^ 64 = 2 ^ 64 - (b - a) := by
    rw [Nat.mod_eq_of_lt (by omega)]
    omega
  refine ⟨e, ?_⟩
  rw [e]
  omega

/-- C18: for every span with end timestamp < start timestamp (both unsigned 64-bit),
the Duration field is the unsigned decimal rendering of ((end - start) mod 2^64)
divided by 1,000, which is (2^64 - (start - end)) / 1000: the translation returns a
record and the value is not clamped to zero (it is positive whenever start - end is at
most 2^64 - 1000). -/
theorem spanToLogServiceData_duration_wraps (t : OpenTracingSpanKind) (now : Int)
    (span : Span) (rc sc : List LogContent)
    (hlt : span.endTimestamp < span.startTimestamp) (h64 : span.startTimestamp < 2 ^ 64) :
    ∃ l, spanToLogServiceData t now span rc sc = some l ∧
      l.spanField (rc.length + sc.length) "Duration"
        = some (FormatUint
            ((((span.endTimestamp : Int) - (span.startTimestamp : Int)) % 2 ^ 64).toNat / 1000)) ∧
      l.spanField (rc.length + sc.length) "Duration"
        = some (FormatUint ((2 ^ 64 - (span.startTimestamp - span.endTimestamp)) / 1000)) ∧
      (span.startTimestamp - span.endTimestamp ≤ 2 ^ 64 - 1000 →
        0 < (2 ^ 64 - (span.startTimestamp - span.endTimestamp)) / 1000) := by
  obtain ⟨l, hl, -, -, hd⟩ := spanField_times t now span rc sc
  obtain ⟨e1, e2⟩ := uint64Sub_of_lt span.endTimestamp span.startTimestamp hlt h64
  refine ⟨l, hl, ?_, ?_, ?_⟩
  · rw [hd, e2]
  · rw [hd, e1]
  · intro h
    omega

/-- C18, witness: start 1000 ns and end 999 ns give Duration 18446744073709551. -/
theorem spanToLogServiceData_duration_wraps_witness :
    ((timedSpan 1000 999).endTimestamp < (timedSpan 1000 999).startTimestamp ∧
      (timedSpan 1000 999).startTimestamp < 2 ^ 64) ∧
    ∃ l, spanToLogServiceData specSpanKindTokens 0 (timedSpan 1000 999) [] [] = some l ∧
      l.spanField (([] : List LogContent).length + ([] : List LogContent).length) "Duration"
        = some (FormatUint
            (((((timedSpan 1000 999).endTimestamp : Int)
              - ((timedSpan 1000 999).startTimestamp : Int)) % 2 ^ 64).toNat / 1000)) ∧
      l.spanField (([] : List LogContent).length + ([] : List LogContent).length) "Duration"
        = some (FormatUint ((2 ^ 64 - ((timedSpan 1000 999).startTimestamp
            - (timedSpan 1000 999).endTimestamp)) / 1000)) ∧
      ((timedSpan 1000 999).startTimestamp - (timedSpan 1000 999).endTimestamp ≤ 2 ^ 64 - 1000 →
        0 < (2 ^ 64 - ((timedSpan 1000 999).startTimestamp
            - (timedSpan 1000 999).endTimestamp)) / 1000) :=
  ⟨⟨by decide, by decide⟩,
    spanToLogServiceData_duration_wraps specSpanKindTokens 0 (timedSpan 1000 999) [] []
      (by decide) (by decide)⟩

/-! ## C19 -/

theorem spanToLogServiceData_clock_irrelevant (t : OpenTracingSpanKind) (now1 now2 : Int)
    (span : Span) (rc sc : List LogContent) (h0 : span.endTimestamp ≠ 0)
    (h64 : span.endTimestamp < 2 ^ 64) :
    spanToLogServiceData t now1 span rc sc = spanToLogServiceData t now2 span rc sc := by
  have hne := toInt64_ne_zero span.endTimestamp (by omega) h64
  unfold spanToLogServiceData
  simp only [hne, if_false]

theorem map_some_injective {α : Type} (xs ys : List α) (h : xs.map some = ys.map some) :
    xs = ys := by
  induction xs generalizing ys with
  | nil =>
    cases ys with
    | nil => rfl
    | cons y ys => simp at h
  | cons x xs ih =>
    cases ys with
    | nil => simp at h
    | cons y ys =>
      simp only [List.map_cons, List.cons.injEq, Option.some.injEq] at h
      rw [h.1, ih ys h.2]

/-- C19: `traceDataToTlsData` returns a result for every batch, one group with one log
per span; for every batch in which all spans have a non-zero (unsigned 64-bit) end
timestamp, two runs with different clocks return equal outputs; and for any batch two
runs with different clocks give records with equal contents, which also agree in Time
wherever the span's end timestamp is non-zero, so that the clock can influence only the
Time of records whose span has end timestamp zero. -/
theorem traceDataToTlsData_total_deterministic (t : OpenTracingSpanKind)
    (clock1 clock2 : Nat → Int) (td : Traces)
    (h : ∀ p ∈ spansInOrder td, p.2.2.endTimestamp ≠ 0 ∧ p.2.2.endTimestamp < 2 ^ 64) :
    traceDataToTlsData t clock1 td = traceDataToTlsData t clock2 td ∧
    (∀ batch : Traces, ∃ logs1 logs2 : List Log,
      traceDataToTlsData t clock1 batch = { LogGroups := [{ Logs := logs1 }] } ∧
      traceDataToTlsData t clock2 batch = { LogGroups := [{ Logs := logs2 }] } ∧
      logs1.length = totalSpans batch ∧ logs2.length = totalSpans batch ∧
      logs1.map (fun l => l.Contents) = logs2.map (fun l => l.Contents) ∧
      (∀ (i : Nat) (l1 l2 : Log) (r : Resource) (s : InstrumentationScope) (sp : Span),
        logs1[i]? = some l1 → logs2[i]? = some l2 →
        (spansInOrder batch)[i]? = some (r, s, sp) →
        sp.endTimestamp ≠ 0 → sp.endTimestamp < 2 ^ 64 → l1 = l2)) := by
  constructor
  · obtain ⟨logs1, ho1, hl1⟩ := traceDataToTlsData_logs t clock1 td
    obtain ⟨logs2, ho2, hl2⟩ := traceDataToTlsData_logs t clock2 td
    have heq : logs1.map some = logs2.map some := by
      rw [hl1, hl2]
      apply List.map_congr_left
      intro p hp
      obtain ⟨h0, h64⟩ := h p.2 (List.snd_mem_of_mem_enum hp)
      exact spanToLogServiceData_clock_irrelevant t _ _ _ _ _ h0 h64
    rw [ho1, ho2, map_some_injective _ _ heq]
  · intro batch
    obtain ⟨logs1, ho1, hl1⟩ := traceDataToTlsData_logs t clock1 batch
    obtain ⟨logs2, ho2, hl2⟩ := traceDataToTlsData_logs t clock2 batch
    refine ⟨logs1, logs2, ho1, ho2, ?_, ?_, ?_, ?_⟩
    · rw [totalSpans_eq_length]; exact logs_length_eq _ _ _ hl1
    · rw [totalSpans_eq_length]; exact logs_length_eq _ _ _ hl2
    · apply map_some_injective
      have e1 := congrArg (List.map (Option.map fun l : Log => l.Contents)) hl1
      have e2 := congrArg (List.map (Option.map fun l : Log => l.Contents)) hl2
      simp only [List.map_map] at e1 e2
      have c1 : (Option.map fun l : Log => l.Contents) ∘ some
          = some ∘ (fun l : Log => l.Contents) := rfl
      rw [c1] at e1 e2
      rw [← List.map_map, ← List.map_map] at e1 e2
      rw [e1, e2, List.map_map, List.map_map]
      apply List.map_congr_left
      intro p _
      rfl
    · intro i l1 l2 r s sp h1 h2 hp h0 h64
      have a1 := log_at_index logs1 _ _ hl1 i l1 (r, s, sp) h1 hp
      have a2 := log_at_index logs2 _ _ hl2 i l2 (r, s, sp) h2 hp
      have e := spanToLogServiceData_clock_irrelevant t (clock1 i) (clock2 i) sp
        (resourceToLogContents r) (instrumentationScopeToLogContents s) h0 h64
      simp only at a1 a2
      rw [e, a2] at a1
      exact (Option.some.inj a1).symm

/-- C19, witness: the example batch, whose only span ends at 2,000,000,000 ns, under
two different clocks. -/
theorem traceDataToTlsData_total_deterministic_witness :
    (∀ p ∈ spansInOrder exampleBatch,
      p.2.2.endTimestamp ≠ 0 ∧ p.2.2.endTimestamp < 2 ^ 64) ∧
    traceDataToTlsData specSpanKindTokens clockA exampleBatch
      = traceDataToTlsData specSpanKindTokens clockB exampleBatch ∧
    (∀ batch : Traces, ∃ logs1 logs2 : List Log,
      traceDataToTlsData specSpanKindTokens clockA batch = { LogGroups := [{ Logs := logs1 }] } ∧
      traceDataToTlsData specSpanKindTokens clockB batch = { LogGroups := [{ Logs := logs2 }] } ∧
      logs1.length = totalSpans batch ∧ logs2.length = totalSpans batch ∧
      logs1.map (fun l => l.Contents) = logs2.map (fun l => l.Contents) ∧
      (∀ (i : Nat) (l1 l2 : Log) (r : Resource) (s : InstrumentationScope) (sp : Span),
        logs1[i]? = some l1 → logs2[i]? = some l2 →
        (spansInOrder batch)[i]? = some (r, s, sp) →
        sp.endTimestamp ≠ 0 → sp.endTimestamp < 2 ^ 64 → l1 = l2)) :=
  ⟨by decide, traceDataToTlsData_total_deterministic specSpanKindTokens clockA clockB
    exampleBatch (by decide)⟩

/-! ## C20 -/

/-- C20: for every span with end timestamp >= start timestamp (unsigned 64-bit), the
number in the Duration field, (end - start) / 1000, is never larger than the number in
the End field minus the number in the Start field, end / 1000 - start / 1000; the
difference of the two is 0 or 1, and it is 1 exactly when end mod 1000 < start mod
1000. -/
theorem spanToLogServiceData_duration_gap (t : OpenTracingSpanKind) (now : Int)
    (span : Span) (rc sc : List LogContent)
    (hle : span.startTimestamp ≤ span.endTimestamp) (h64 : span.endTimestamp < 2 ^ 64) :
    ∃ l, spanToLogServiceData t now span rc sc = some l ∧
      l.spanField (rc.length + sc.length) "Start"
        = some (FormatUint (span.startTimestamp / 1000)) ∧
      l.spanField (rc.length + sc.length) "End"
        = some (FormatUint (span.endTimestamp / 1000)) ∧
      l.spanField (rc.length + sc.length) "Duration"
        = some (FormatUint ((span.endTimestamp - span.startTimestamp) / 1000)) ∧
      (span.endTimestamp - span.startTimestamp) / 1000
        ≤ span.endTimestamp / 1000 - span.startTimestamp / 1000 ∧
      ((span.endTimestamp / 1000 - span.startTimestamp / 1000)
          - (span.endTimestamp - span.startTimestamp) / 1000 = 0 ∨
        (span.endTimestamp / 1000 - span.startTimestamp / 1000)
          - (span.endTimestamp - span.startTimestamp) / 1000 = 1) ∧
      ((span.endTimestamp / 1000 - span.startTimestamp / 1000)
          - (span.endTimestamp - span.startTimestamp) / 1000 = 1
        ↔ span.endTimestamp % 1000 < span.startTimestamp % 1000) := by
  obtain ⟨l, hl, hs, he, hd⟩ := spanField_times t now span rc sc
  refine ⟨l, hl, hs, he, ?_, ?_, ?_, ?_⟩
  · rw [hd, uint64Sub_of_le _ _ hle h64]
  · omega
  · omega
  · omega

/-- C20, witness: start 999 ns and end 1000 ns, where the gap is 1. -/
theorem spanToLogServiceData_duration_gap_witness :
    ((timedSpan 999 1000).startTimestamp ≤ (timedSpan 999 1000).endTimestamp ∧
      (timedSpan 999 1000).endTimestamp < 2 ^ 64) ∧
    ∃ l, spanToLogServiceData specSpanKindTokens 0 (timedSpan 999 1000) [] [] = some l ∧
      l.spanField (([] : List LogContent).length + ([] : List LogContent).length) "Start"
        = some (FormatUint ((timedSpan 999 1000).startTimestamp / 1000)) ∧
      l.spanField (([] : List LogContent).length + ([] : List LogContent).length) "End"
        = some (FormatUint ((timedSpan 999 1000).endTimestamp / 1000)) ∧
      l.spanField (([] : List LogContent).length + ([] : List LogContent).length) "Duration"
        = some (FormatUint (((timedSpan 999 1000).endTimestamp
            - (timedSpan 999 1000).startTimestamp) / 1000)) ∧
      ((timedSpan 999 1000).endTimestamp - (timedSpan 999 1000).startTimestamp) / 1000
        ≤ (timedSpan 999 1000).endTimestamp / 1000 - (timedSpan 999 1000).startTimestamp / 1000 ∧
      (((timedSpan 999 1000).endTimestamp / 1000 - (timedSpan 999 1000).startTimestamp / 1000)
          - ((timedSpan 999 1000).endTimestamp - (timedSpan 999 1000).startTimestamp) / 1000 = 0 ∨
        ((timedSpan 999 1000).endTimestamp / 1000 - (timedSpan 999 1000).startTimestamp / 1000)
          - ((timedSpan 999 1000).endTimestamp - (timedSpan 999 1000).startTimestamp) / 1000 = 1) ∧
      (((timedSpan 999 1000).endTimestamp / 1000 - (timedSpan 999 1000).startTimestamp / 1000)
          - ((timedSpan 999 1000).endTimestamp - (timedSpan 999 1000).startTimestamp) / 1000 = 1
        ↔ (timedSpan 999 1000).endTimestamp % 1000 < (timedSpan 999 1000).startTimestamp % 1000) :=
  ⟨⟨by decide, by decide⟩,
    spanToLogServiceData_duration_gap specSpanKindTokens 0 (timedSpan 999 1000) [] []
      (by decide) (by decide)⟩

end Volcenginetlsexporter
